import Mathlib

/-!
A shallow embedding of the matching engine of the booking-expense-matcher
repository (TypeScript), together with proofs about its behaviour.

Embedding conventions:
* JS `number` is modelled as `ℚ` (exact arithmetic); `x / 0` is `0` in `ℚ`,
  so every spot where the source could divide by zero is guarded explicitly
  to mirror the JS result of the comparison that consumes the quotient.
* JS strings are Lean `String`s; a missing/`undefined` string field is
  modelled as `""`, which is equivalent for every guard in the source
  because all guards use JS truthiness (`""` and `undefined` are both falsy).
* Amount fields that the source compares against `undefined` are `Option ℚ`.
* Date-valued fields are modelled by `DateField`, the abstraction of a raw
  date string through `parseDate` / `new Date(...)`: absent/empty string,
  the literal sentinel value, a present but unparseable string, or a
  parseable string carrying its epoch-milliseconds value.
* `Array.prototype.sort` (stable) followed by `[0]` is modelled by
  `pickBest`, which returns the first element attaining the maximal score.
* `Array.prototype.indexOf` is modelled structurally (`List.indexOf`).
-/

section Spec2Proof

attribute [local semireducible] Rat.add Rat.mul Rat.inv Rat.sub Rat.ofScientific

/-! ## Character and string utilities shared by the services -/

/-- JS regex `\s` character class (the subset relevant to this code base). -/
def isWsChar (c : Char) : Bool :=
  c = ' ' || c = '\t' || c = '\n' || c = '\r' || c = '\x0b' || c = '\x0c'

/-- JS regex `\w` character class (ASCII letters, digits, underscore). -/
def isWordChar (c : Char) : Bool :=
  c.isAlphanum || c = '_'

/-- Boolean prefix test on character lists. -/
def pfxL : List Char → List Char → Bool
  | [], _ => true
  | _ :: _, [] => false
  | a :: as, b :: bs => a = b && pfxL as bs

/-- JS `haystack.includes(needle)` on character lists. -/
def containsSub (n : List Char) : List Char → Bool
  | [] => n.isEmpty
  | c :: t => pfxL n (c :: t) || containsSub n t

/-- JS `haystack.includes(needle)` on strings. -/
def strIncludes (hay needle : String) : Bool :=
  containsSub needle.data hay.data

/-- Drop leading and trailing JS whitespace (JS `String.prototype.trim`). -/
def trimWs (l : List Char) : List Char :=
  ((l.dropWhile isWsChar).reverse.dropWhile isWsChar).reverse

/-- Replace every run of whitespace by a single space (JS `replace(/\s+/g, ' ')`).
The boolean flag records whether a whitespace run is in progress. -/
def collapseWsA : Bool → List Char → List Char
  | _, [] => []
  | inRun, c :: rest =>
    if isWsChar c then
      if inRun then collapseWsA true rest else ' ' :: collapseWsA true rest
    else c :: collapseWsA false rest

/-- `normalizeString` from MatchingService.ts / FlightMatcher / SimpleFlightMatcher:
lower-case, trim, strip `[^\w\s]`, collapse whitespace. -/
def normalizeString (s : String) : String :=
  String.mk (collapseWsA false
    (List.filter (fun c => isWordChar c || isWsChar c) (trimWs (s.data.map Char.toLower))))

/-- JS `str.split(/\s+/)` (as used by `fuzzyNameMatch`): list of pieces between
maximal whitespace runs, with the JS empty-piece behaviour at the ends. -/
def splitWsA : Bool → List Char → List Char → List (List Char)
  | _, cur, [] => [cur.reverse]
  | inRun, cur, c :: rest =>
    if inRun && isWsChar c then splitWsA true cur rest
    else if isWsChar c then cur.reverse :: splitWsA true [] rest
    else splitWsA false (c :: cur) rest

def splitWs (s : String) : List String :=
  (splitWsA false [] s.data).map String.mk

/-- One row update of the classic Levenshtein dynamic program.
`left` is the value just computed in the new row; `old` is the tail of the
previous row starting at the diagonal entry. -/
def levRow (c : Char) : List Char → ℕ → List ℕ → List ℕ
  | [], _, _ => []
  | bc :: brest, left, old =>
    match old with
    | [] => []
    | o1 :: orest =>
      let o2 := orest.headD 0
      let cost := if c = bc then 0 else 1
      let v := min (min (left + 1) (o2 + 1)) (o1 + cost)
      v :: levRow c brest v orest

/-- `levenshteinDistance` from MatchingService.ts / FlightMatcher (classic DP,
insert/delete/substitute cost 1). -/
def levenshteinDistance (s1 s2 : String) : ℕ :=
  let b := s2.data
  (s1.data.foldl
    (fun row c => (row.headD 0 + 1) :: levRow c b (row.headD 0 + 1) row)
    (List.range (b.length + 1))).getLastD 0

/-- JS `Math.round(x * 100) / 100` (round to two decimals; `.5` rounds up). -/
def round2 (q : ℚ) : ℚ :=
  ((⌊q * 100 + 1 / 2⌋ : ℤ) : ℚ) / 100

/-- Mismatch within the common prefix of two character lists (used to show
that a reason string with one leading tag can never equal a string with a
different leading tag). -/
def mismatchL : List Char → List Char → Bool
  | a :: as, b :: bs => a ≠ b || mismatchL as bs
  | _, _ => false

/-! ## Data model -/

/-- Abstraction of a raw date-string field through JS date parsing:
`missing` = absent/empty (falsy), `sentinel` = the placeholder string the
normalizers produce (truthy but never parseable), `noParse` = present but
unparseable, `time t` = parseable with epoch value `t` (milliseconds). -/
inductive DateField where
  | missing
  | sentinel
  | noParse
  | time (t : ℚ)
  deriving DecidableEq, Repr

/-- JS truthiness of the underlying raw string of a `DateField`. -/
def DateField.truthy : DateField → Bool
  | .missing => false
  | _ => true

/-- The parsed epoch value, if the underlying string parses to a valid date. -/
def DateField.timeOf : DateField → Option ℚ
  | .time t => some t
  | _ => none

structure BookingData where
  id : String := ""
  bookingDate : DateField := .missing
  travelerName : String := ""
  travelType : String := ""
  vendor : String := ""
  origin : String := ""
  destination : String := ""
  departureDate : DateField := .missing
  returnDate : DateField := .missing
  bookingReference : String := ""
  amount : Option ℚ := none
  currency : String := ""
  bookingIdNormalized : String := ""
  bookingTypeNormalized : String := ""
  merchantNormalized : String := ""
  cardTypeNormalized : String := ""
  cardLast4Normalized : String := ""
  cardHolderNameNormalized : String := ""
  currencyNormalized : String := ""
  amountNormalized : Option ℚ := none
  bookingExpectTxTimeNormalized : DateField := .missing
  travelerNameNormalized : String := ""
  rawCreditCardNetwork : String := ""
  deriving DecidableEq, Repr

structure ExpenseData where
  id : String := ""
  expenseDate : DateField := .missing
  expenseType : String := ""
  vendor : String := ""
  amount : Option ℚ := none
  currency : String := ""
  employeeName : String := ""
  description : String := ""
  origin : String := ""
  destination : String := ""
  startDate : DateField := .missing
  endDate : DateField := .missing
  cardLast4Normalized : String := ""
  deriving DecidableEq, Repr

structure MatchResult where
  expenseId : String
  bookingId : String
  matchConfidence : ℚ
  matchReason : List String
  deriving DecidableEq, Repr

/-- Running `(totalScore, maxPossibleScore, reasons)` triple of the weighted
scoring loops. -/
structure Tally where
  total : ℚ
  maxPossible : ℚ
  reasons : List String
  deriving DecidableEq, Repr

def Tally.add (a b : Tally) : Tally :=
  ⟨a.total + b.total, a.maxPossible + b.maxPossible, a.reasons ++ b.reasons⟩

def Tally.zero : Tally := ⟨0, 0, []⟩

/-- JS number-to-string interpolation inside reason strings (including
`.toFixed(...)`) is abstracted by the canonical rational rendering; no claim
depends on the exact digits of an interpolated number. -/
def numStr (q : ℚ) : String := toString q

/-! ## MatchingService.ts — generic scoring strategy -/

/-- `fuzzyNameMatch` from MatchingService.ts. -/
def fuzzyNameMatch (name1 name2 : String) : ℚ :=
  let norm1 := normalizeString name1
  let norm2 := normalizeString name2
  if norm1 = norm2 then 1
  else if strIncludes norm1 norm2 || strIncludes norm2 norm1 then 9/10
  else
    let parts1 := splitWs norm1
    let parts2 := splitWs norm2
    let totalParts := max parts1.length parts2.length
    let matchingParts :=
      (parts1.filter (fun p1 =>
        parts2.any (fun p2 => p1 = p2 || levenshteinDistance p1 p2 ≤ 2))).length
    (matchingParts : ℚ) / (totalParts : ℚ)

/-- `fuzzyAmountMatch` from MatchingService.ts.  When `amount1 + amount2 = 0`
with `diff ≠ 0`, JS computes an infinite/NaN `percentDiff`, so no band
matches; the explicit `avgAmount = 0` test reproduces exactly that. -/
def fuzzyAmountMatch (amount1 amount2 : ℚ) : ℚ :=
  let diff := |amount1 - amount2|
  let avgAmount := (amount1 + amount2) / 2
  if diff = 0 then 1
  else if avgAmount = 0 then 0
  else
    let percentDiff := diff / avgAmount * 100
    if percentDiff ≤ 1 then 98/100
    else if percentDiff ≤ 5 then 9/10
    else if percentDiff ≤ 10 then 85/100
    else if percentDiff ≤ 15 then 8/10
    else 0

/-- The travel-type alias table of `matchTravelTypes`. -/
def travelTypeMap : List (String × List String) :=
  [("flight", ["air", "airline", "airfare", "plane", "aviation"]),
   ("hotel", ["lodging", "accommodation", "room"]),
   ("car", ["vehicle", "rental", "auto", "automobile"]),
   ("train", ["rail", "railway", "railroad"]),
   ("taxi", ["cab", "ride", "uber", "lyft"])]

/-- `matchTravelTypes` from MatchingService.ts. -/
def matchTravelTypes (bookingType expenseType : String) : Bool :=
  let normBooking := normalizeString bookingType
  let normExpense := normalizeString expenseType
  if normBooking = normExpense then true
  else travelTypeMap.any (fun p =>
    (strIncludes normBooking p.1 || p.2.any (fun a => strIncludes normBooking a)) &&
    (strIncludes normExpense p.1 || p.2.any (fun a => strIncludes normExpense a)))

/-- Dates pushed for truthy fields, then filtered to the parseable ones
(mirrors the push-`parseDate`-filter-`isNaN` sequence of `matchDates`). -/
def validTimes (l : List DateField) : List ℚ :=
  (l.filter DateField.truthy).filterMap DateField.timeOf

/-- `matchDates` from MatchingService.ts: minimum absolute day difference over
all valid booking/expense date pairs, mapped through the proximity bands. -/
def matchDates (booking : BookingData) (expense : ExpenseData) : ℚ :=
  let validBookingDates :=
    validTimes [booking.bookingDate, booking.departureDate, booking.returnDate]
  let validExpenseDates :=
    validTimes [expense.expenseDate, expense.startDate, expense.endDate]
  if validBookingDates = [] ∨ validExpenseDates = [] then 0
  else
    let dayDiffs := validBookingDates.flatMap (fun tb =>
      validExpenseDates.map (fun te => |tb - te| / (1000 * 60 * 60 * 24)))
    match dayDiffs with
    | [] => 0
    | d :: ds =>
      let minDaysDiff := ds.foldl min d
      if minDaysDiff = 0 then 1
      else if minDaysDiff ≤ 1 then 95/100
      else if minDaysDiff ≤ 3 then 9/10
      else if minDaysDiff ≤ 7 then 8/10
      else if minDaysDiff ≤ 14 then 6/10
      else if minDaysDiff ≤ 30 then 4/10
      else 0

/-- `fuzzyStringMatch` from MatchingService.ts. -/
def fuzzyStringMatch (str1 str2 : String) : ℚ :=
  let norm1 := normalizeString str1
  let norm2 := normalizeString str2
  if norm1 = norm2 then 1
  else if strIncludes norm1 norm2 || strIncludes norm2 norm1 then 9/10
  else
    let distance := levenshteinDistance norm1 norm2
    let maxLength := max norm1.length norm2.length
    1 - (distance : ℚ) / (maxLength : ℚ)

/-- JS truthiness plus the sentinel test used for `cardLast4Normalized`. -/
def cardKnown (card : String) : Bool :=
  card ≠ "" && card ≠ "[No card last 4 found]"

/-! The nine criteria of `calculateMatchScore`, in source order, each as a
contribution to the running `(totalScore, maxPossibleScore, reasons)`. -/

def stepReference (b : BookingData) (e : ExpenseData) : Tally :=
  if b.bookingReference ≠ "" && e.description ≠ "" then
    if strIncludes (normalizeString e.description) (normalizeString b.bookingReference) then
      ⟨20, 20, ["Reference match: " ++ b.bookingReference]⟩
    else ⟨0, 20, []⟩
  else Tally.zero

def stepName (b : BookingData) (e : ExpenseData) : Tally :=
  if b.travelerName ≠ "" && e.employeeName ≠ "" then
    let nameScore := fuzzyNameMatch b.travelerName e.employeeName
    if nameScore > 7/10 then
      ⟨15 * nameScore, 15, ["Name match: " ++ b.travelerName ++ " / " ++ e.employeeName]⟩
    else ⟨0, 15, []⟩
  else Tally.zero

def stepAmount (b : BookingData) (e : ExpenseData) : Tally :=
  match b.amount, e.amount with
  | some a1, some a2 =>
    let amountScore := fuzzyAmountMatch a1 a2
    if amountScore > 8/10 then
      ⟨15 * amountScore, 15, ["Amount match: " ++ numStr a1 ++ " vs " ++ numStr a2]⟩
    else ⟨0, 15, []⟩
  | _, _ => Tally.zero

def stepCard (b : BookingData) (e : ExpenseData) : Tally :=
  if cardKnown b.cardLast4Normalized && cardKnown e.cardLast4Normalized then
    if b.cardLast4Normalized = e.cardLast4Normalized then
      ⟨20, 20, ["Card last 4 match: " ++ b.cardLast4Normalized]⟩
    else ⟨0, 20, []⟩
  else Tally.zero

def stepTravelType (b : BookingData) (e : ExpenseData) : Tally :=
  if b.travelType ≠ "" && e.expenseType ≠ "" then
    if matchTravelTypes b.travelType e.expenseType then
      ⟨10, 10, ["Travel type match: " ++ b.travelType ++ " / " ++ e.expenseType]⟩
    else ⟨0, 10, []⟩
  else Tally.zero

def stepVendor (b : BookingData) (e : ExpenseData) : Tally :=
  if b.vendor ≠ "" && e.vendor ≠ "" then
    let vendorScore := fuzzyStringMatch b.vendor e.vendor
    if vendorScore > 6/10 then
      ⟨10 * vendorScore, 10, ["Vendor match: " ++ b.vendor ++ " / " ++ e.vendor]⟩
    else ⟨0, 10, []⟩
  else Tally.zero

/-- Criterion 7 of `calculateMatchScore`: note that in the source the line
`maxPossibleScore += 10` is unconditional — the date weight is added whether
or not any usable date exists on either side. -/
def stepDate (b : BookingData) (e : ExpenseData) : Tally :=
  let dateScore := matchDates b e
  if dateScore > 0 then ⟨10 * dateScore, 10, ["Date alignment"]⟩ else ⟨0, 10, []⟩

def stepOrigin (b : BookingData) (e : ExpenseData) : Tally :=
  if b.origin ≠ "" && e.origin ≠ "" then
    let originScore := fuzzyStringMatch b.origin e.origin
    if originScore > 7/10 then
      ⟨5 * originScore, 5, ["Origin match: " ++ b.origin ++ " / " ++ e.origin]⟩
    else ⟨0, 5, []⟩
  else Tally.zero

def stepDest (b : BookingData) (e : ExpenseData) : Tally :=
  if b.destination ≠ "" && e.destination ≠ "" then
    let destScore := fuzzyStringMatch b.destination e.destination
    if destScore > 7/10 then
      ⟨5 * destScore, 5, ["Destination match: " ++ b.destination ++ " / " ++ e.destination]⟩
    else ⟨0, 5, []⟩
  else Tally.zero

/-- The running totals of `calculateMatchScore` over its nine criteria, in
source order. -/
def genericTally (b : BookingData) (e : ExpenseData) : Tally :=
  [stepReference b e, stepName b e, stepAmount b e, stepCard b e,
   stepTravelType b e, stepVendor b e, stepDate b e, stepOrigin b e,
   stepDest b e].foldl Tally.add Tally.zero

/-- `totalScore / maxPossibleScore` guarded by `maxPossibleScore > 0` as in
the source; `0` otherwise. -/
def ratioOf (t : Tally) : ℚ :=
  if t.maxPossible > 0 then t.total / t.maxPossible else 0

/-- `calculateMatchScore` from MatchingService.ts. -/
def calculateMatchScore (b : BookingData) (e : ExpenseData) : ℚ × List String :=
  let t := genericTally b e
  (round2 (ratioOf t), t.reasons)

/-- Variant of criterion 7 that follows the specification text instead of the
source: the date criterion is applicable — and its weight counted in the
maximum-possible total — only when both sides contribute at least one valid
date.  Used solely to compare the source behaviour against the spec. -/
def stepDateSpecNeutral (b : BookingData) (e : ExpenseData) : Tally :=
  if validTimes [b.bookingDate, b.departureDate, b.returnDate] ≠ [] ∧
     validTimes [e.expenseDate, e.startDate, e.endDate] ≠ [] then
    stepDate b e
  else Tally.zero

def genericTallySpecNeutral (b : BookingData) (e : ExpenseData) : Tally :=
  [stepReference b e, stepName b e, stepAmount b e, stepCard b e,
   stepTravelType b e, stepVendor b e, stepDateSpecNeutral b e, stepOrigin b e,
   stepDest b e].foldl Tally.add Tally.zero

def calculateMatchScoreSpecNeutral (b : BookingData) (e : ExpenseData) : ℚ × List String :=
  let t := genericTallySpecNeutral b e
  (round2 (ratioOf t), t.reasons)

/-! ## MatchingService.ts — expense-driven greedy assignment -/

/-- One scored candidate (anonymous `{id, score, reasons}` object). -/
structure ScoredCandidate where
  id : String
  score : ℚ
  reasons : List String
  deriving DecidableEq, Repr

/-- First element attaining the maximal score: the model of the stable
descending `sort` by score followed by taking index 0. -/
def pickBest : List ScoredCandidate → Option ScoredCandidate
  | [] => none
  | s :: rest => some (rest.foldl (fun b x => if x.score > b.score then x else b) s)

/-- `booking.id || "booking-" + idx` (JS falsy fallback). -/
def effBookingId (b : BookingData) (idx : ℕ) : String :=
  if b.id ≠ "" then b.id else "booking-" ++ toString idx

/-- `expense.id || "expense-" + idx` (JS falsy fallback). -/
def effExpenseId (e : ExpenseData) (idx : ℕ) : String :=
  if e.id ≠ "" then e.id else "expense-" ++ toString idx

/-- The scored list one expense builds against all bookings. -/
def scoredBookingsFor (bookings : List BookingData) (expense : ExpenseData) :
    List ScoredCandidate :=
  bookings.enum.map (fun p =>
    let r := calculateMatchScore p.2 expense
    ⟨effBookingId p.2 p.1, r.1, r.2⟩)

/-- The body of the `expenses.forEach` loop of `matchBookingsWithExpenses`:
best candidate above the 0.3 threshold, if any. -/
def matchOneExpense (bookings : List BookingData) (expense : ExpenseData)
    (expenseIdx : ℕ) : Option MatchResult :=
  match pickBest (scoredBookingsFor bookings expense) with
  | some bm =>
    if bm.score ≥ 3/10 then
      some ⟨effExpenseId expense expenseIdx, bm.id, bm.score, bm.reasons⟩
    else none
  | none => none

/-- `matchBookingsWithExpenses` from MatchingService.ts (threshold 0.3). -/
def matchBookingsWithExpenses (bookings : List BookingData)
    (expenses : List ExpenseData) : List MatchResult :=
  expenses.enum.filterMap (fun p => matchOneExpense bookings p.2 p.1)

/-- `getUnmatchedBookings` from MatchingService.ts. -/
def getUnmatchedBookings (bookings : List BookingData) (ms : List MatchResult) :
    List BookingData :=
  bookings.enum.filterMap (fun p =>
    if (ms.map MatchResult.bookingId).contains (effBookingId p.2 p.1) then none
    else some p.2)

/-- `getUnmatchedExpenses` from MatchingService.ts. -/
def getUnmatchedExpenses (expenses : List ExpenseData) (ms : List MatchResult) :
    List ExpenseData :=
  expenses.enum.filterMap (fun p =>
    if (ms.map MatchResult.expenseId).contains (effExpenseId p.2 p.1) then none
    else some p.2)

/-- The record returned by `getMatchStatistics`.  `matchRate` is kept as the
raw percentage (the source formats it with `toFixed(1) + "%"`); the two
`unmatched` fields are integers because the JS subtraction can go negative. -/
structure MatchStats where
  totalBookings : ℕ
  totalExpenses : ℕ
  totalMatches : ℕ
  matchRate : ℚ
  highConfidence : ℕ
  mediumConfidence : ℕ
  lowConfidence : ℕ
  unmatchedBookings : ℤ
  unmatchedExpenses : ℤ
  deriving DecidableEq, Repr

/-- `getMatchStatistics` from MatchingService.ts (the copy in the batch
service is character-identical). -/
def getMatchStatistics (bookings : List BookingData) (expenses : List ExpenseData)
    (ms : List MatchResult) : MatchStats :=
  let highConfidenceMatches := ms.filter (fun m => decide (m.matchConfidence ≥ 8/10))
  let mediumConfidenceMatches := ms.filter (fun m =>
    decide (m.matchConfidence ≥ 5/10) && decide (m.matchConfidence < 8/10))
  let lowConfidenceMatches := ms.filter (fun m => decide (m.matchConfidence < 5/10))
  { totalBookings := bookings.length
    totalExpenses := expenses.length
    totalMatches := ms.length
    matchRate := (ms.length : ℚ) / ((max expenses.length 1 : ℕ) : ℚ) * 100
    highConfidence := highConfidenceMatches.length
    mediumConfidence := mediumConfidenceMatches.length
    lowConfidence := lowConfidenceMatches.length
    unmatchedBookings := (bookings.length : ℤ) - (ms.length : ℤ)
    unmatchedExpenses := (expenses.length : ℤ) - (ms.length : ℤ) }

/-! ## FlightMatcher — flight-specialized scoring strategy -/

/-- `fuzzyStringMatch` of FlightMatcher: identical to the generic one except
for the early return on a falsy raw argument. -/
def fuzzyStringMatchFM (str1 str2 : String) : ℚ :=
  if str1 = "" || str2 = "" then 0 else fuzzyStringMatch str1 str2

/-- `fuzzyFlightAmountMatch` of FlightMatcher.  The percent-difference bands
run first; the partial-payment test runs only after every band has failed.
When `x + y = 0` (with `x ≠ y`) the JS `percentDiff` is infinite, so no band
matches and control falls through to the partial-payment test, which is what
the `avgAmount = 0` branch reproduces. -/
def fuzzyFlightAmountMatch (bookingAmount expenseAmount : Option ℚ) :
    ℚ × Option String :=
  match bookingAmount, expenseAmount with
  | some x, some y =>
    let diff := |x - y|
    let avgAmount := (x + y) / 2
    if diff = 0 then (1, some "Exact amount match")
    else
      let halfPay :=
        if |y / x - 1/2| < 1/20 then
          ((7:ℚ)/10,
           some ("Possible partial payment match (expense is ~50% of booking): "
             ++ numStr x ++ " vs " ++ numStr y))
        else ((0:ℚ), (none : Option String))
      if avgAmount = 0 then halfPay
      else
        let percentDiff := diff / avgAmount * 100
        if percentDiff ≤ 1 then
          (98/100, some ("Very close amount match (within 1%): " ++ numStr x ++ " vs " ++ numStr y))
        else if percentDiff ≤ 5 then
          (9/10, some ("Close amount match (within 5%): " ++ numStr x ++ " vs " ++ numStr y))
        else if percentDiff ≤ 10 then
          (85/100, some ("Good amount match (within 10%): " ++ numStr x ++ " vs " ++ numStr y))
        else if percentDiff ≤ 15 then
          (75/100, some ("Possible amount match (within 15%): " ++ numStr x ++ " vs " ++ numStr y))
        else halfPay
  | _, _ => (0, none)

/-- Can regex matching of `\b([A-Z]{2})\b\s*\d+` continue successfully right
after the two capital letters: the next character must be non-word for the
`\b` (and since `\d+` must still match, it can only be whitespace), and the
first character after the whitespace run must be a digit. -/
def carrierTailOk (rest2 : List Char) : Bool :=
  match rest2 with
  | [] => false
  | c :: _ =>
    isWsChar c &&
      (match rest2.dropWhile isWsChar with
       | d :: _ => d.isDigit
       | [] => false)

/-- Left-to-right scan for the first match of `\b([A-Z]{2})\b\s*\d+`;
`prevW` records whether the previous character is a word character (for the
leading `\b`).  A match needs the boundary, two capitals, and a successful
tail; otherwise the scan advances one character, exactly as the regex engine
retries at the next position. -/
def findCarrier : Bool → List Char → Option String
  | _, [] => none
  | _, [_] => none
  | prevW, c1 :: c2 :: rest2 =>
    if !prevW && c1.isUpper && c2.isUpper && carrierTailOk rest2 then
      some (String.mk [c1, c2])
    else findCarrier (isWordChar c1) (c2 :: rest2)

/-- `extractCarrierCode` of FlightMatcher. -/
def extractCarrierCode (text : String) : Option String :=
  if text = "" then none else findCarrier false text.data

/-- One leg of `matchFlightRoute`: the score is computed only when both
sides carry the field (otherwise the JS variable keeps its initial 0). -/
def routeLegScore (x y : String) : ℚ :=
  if x ≠ "" && y ≠ "" then fuzzyStringMatchFM x y else 0

/-- `matchFlightRoute` of FlightMatcher. -/
def matchFlightRoute (booking : BookingData) (expense : ExpenseData) :
    ℚ × Option String :=
  let bookingOrigin := booking.origin
  let bookingDest := booking.destination
  let expenseOrigin := expense.origin
  let expenseDest := expense.destination
  if bookingOrigin = "" && bookingDest = "" && expenseOrigin = "" && expenseDest = "" then
    (0, none)
  else
    let originScore := routeLegScore bookingOrigin expenseOrigin
    let destScore := routeLegScore bookingDest expenseDest
    let routeReason :=
      (if bookingOrigin ≠ "" && expenseOrigin ≠ "" && decide (originScore > 7/10) then
        "Origin match: " ++ bookingOrigin ++ " - " ++ expenseOrigin ++ ". "
       else "") ++
      (if bookingDest ≠ "" && expenseDest ≠ "" && decide (destScore > 7/10) then
        "Destination match: " ++ bookingDest ++ " - " ++ expenseDest ++ ". "
       else "")
    let routeScore :=
      if originScore > 0 ∧ destScore > 0 then (originScore + destScore) / 2
      else if originScore > 0 then originScore * (8/10)
      else if destScore > 0 then destScore * (8/10)
      else 0
    (routeScore,
     if routeScore > 0 then some (String.mk (trimWs routeReason.data)) else none)

/-- Insert `sep` at the first non-digit/digit boundary: the model of
`str.replace(/(\D+)(\d+)/, "$1" + sep + "$2")` (the first regex match keeps
both groups verbatim, so the replacement only inserts the separator). -/
def insSep (sep : Char) : List Char → List Char
  | [] => []
  | [c] => [c]
  | c1 :: c2 :: rest =>
    if !c1.isDigit && c2.isDigit then c1 :: sep :: c2 :: rest
    else c1 :: insSep sep (c2 :: rest)

/-- One attempt to match `[a-z]{1,2}\d{3,4}` (greedy) at the head of the
list; returns the match and the remaining input. -/
def tryAN : List Char → Option (List Char × List Char)
  | [] => none
  | a :: tail =>
    if a.isLower then
      match tail with
      | [] => none
      | b :: tail2 =>
        if b.isLower then
          let ds := tail2.takeWhile Char.isDigit
          if ds.length ≥ 3 then some ([a, b] ++ ds.take 4, tail2.drop (min ds.length 4))
          else none
        else
          let ds := tail.takeWhile Char.isDigit
          if ds.length ≥ 3 then some ([a] ++ ds.take 4, tail.drop (min ds.length 4))
          else none
    else none

/-- Global scan for `/[a-z]{1,2}\d{3,4}/g` (fuel-indexed to stay structural;
the fuel used below always suffices because every step consumes input). -/
def scanANF : ℕ → List Char → List (List Char)
  | 0, _ => []
  | _ + 1, [] => []
  | fuel + 1, c :: rest =>
    match tryAN (c :: rest) with
    | some (m, r) => m :: scanANF fuel r
    | none => scanANF fuel rest

/-- `str.match(/[a-z]{1,2}\d{3,4}/g)` with `null` modelled as `[]`. -/
def flightNumberParts (s : String) : List String :=
  (scanANF (s.data.length + 1) s.data).map String.mk

/-! The ten criteria of `calculateFlightMatchScore`, in source order. -/

def fstepCarrier (b : BookingData) (e : ExpenseData) : Tally :=
  match extractCarrierCode b.bookingReference, extractCarrierCode e.description with
  | some bc, some ec =>
    if bc = ec then ⟨25, 25, ["Airline carrier code match: " ++ bc]⟩ else ⟨0, 25, []⟩
  | _, _ => Tally.zero

def fstepReference (b : BookingData) (e : ExpenseData) : Tally :=
  if b.bookingReference ≠ "" && e.description ≠ "" then
    let bookingRef := normalizeString b.bookingReference
    let expenseDesc := normalizeString e.description
    let refVariations := [bookingRef, String.mk (insSep ' ' bookingRef.data),
      String.mk (insSep '#' bookingRef.data)]
    if refVariations.any (fun ref => strIncludes expenseDesc ref) then
      ⟨20, 20, ["Flight reference match: " ++ b.bookingReference]⟩
    else
      let bookingRefParts := flightNumberParts bookingRef
      let expenseDescParts := flightNumberParts expenseDesc
      if bookingRefParts ≠ [] && expenseDescParts ≠ [] then
        match bookingRefParts.findSome? (fun bp =>
          (expenseDescParts.find? (fun ep =>
            decide (fuzzyStringMatchFM bp ep > 8/10))).map (fun ep => (bp, ep))) with
        | some (bp, ep) =>
          ⟨15, 20, ["Partial flight reference match: " ++ bp ++ " in " ++ ep]⟩
        | none => ⟨0, 20, []⟩
      else ⟨0, 20, []⟩
  else Tally.zero

def fstepRoute (b : BookingData) (e : ExpenseData) : Tally :=
  let routeMatch := matchFlightRoute b e
  if routeMatch.1 > 0 then
    ⟨15 * routeMatch.1, 15, routeMatch.2.toList⟩
  else Tally.zero

def fstepName (b : BookingData) (e : ExpenseData) : Tally :=
  if b.travelerNameNormalized ≠ "" &&
     b.travelerNameNormalized ≠ "[No valid traveler name found]" &&
     e.employeeName ≠ "" then
    let nameScore := fuzzyStringMatchFM b.travelerNameNormalized e.employeeName
    if nameScore > 7/10 then
      ⟨15 * nameScore, 15,
       ["Traveler name match: " ++ b.travelerNameNormalized ++ " / " ++ e.employeeName]⟩
    else ⟨0, 15, []⟩
  else Tally.zero

def fstepAmount (b : BookingData) (e : ExpenseData) : Tally :=
  match b.amountNormalized, e.amount with
  | some ba, some ea =>
    let amountMatch := fuzzyFlightAmountMatch (some ba) (some ea)
    if amountMatch.1 > 0 then ⟨15 * amountMatch.1, 15, amountMatch.2.toList⟩
    else ⟨0, 15, []⟩
  | _, _ => Tally.zero

def fstepCard (b : BookingData) (e : ExpenseData) : Tally :=
  if cardKnown b.cardLast4Normalized && cardKnown e.cardLast4Normalized then
    if b.cardLast4Normalized = e.cardLast4Normalized then
      ⟨30, 30, ["Card last 4 match: " ++ b.cardLast4Normalized]⟩
    else ⟨0, 30, []⟩
  else Tally.zero

def fstepHolder (b : BookingData) (e : ExpenseData) : Tally :=
  if b.cardHolderNameNormalized ≠ "" &&
     b.cardHolderNameNormalized ≠ "[No card holder name found]" &&
     b.cardHolderNameNormalized ≠ "[Invalid card holder name format]" &&
     e.employeeName ≠ "" then
    let cardHolderMatch := fuzzyStringMatchFM b.cardHolderNameNormalized e.employeeName
    if cardHolderMatch > 7/10 then
      ⟨15 * cardHolderMatch, 15,
       ["Card holder name match: " ++ b.cardHolderNameNormalized ++ " / " ++ e.employeeName]⟩
    else ⟨0, 15, []⟩
  else Tally.zero

def fstepMerchant (b : BookingData) (e : ExpenseData) : Tally :=
  if b.merchantNormalized ≠ "" && b.merchantNormalized ≠ "[No merchant found]" &&
     e.vendor ≠ "" then
    let vendorScore := fuzzyStringMatchFM b.merchantNormalized e.vendor
    if vendorScore > 6/10 then
      ⟨10 * vendorScore, 10,
       ["Airline/vendor match: " ++ b.merchantNormalized ++ " / " ++ e.vendor]⟩
    else ⟨0, 10, []⟩
  else Tally.zero

def fstepCurrency (b : BookingData) (e : ExpenseData) : Tally :=
  if b.currencyNormalized ≠ "" && b.currencyNormalized ≠ "[No currency found]" &&
     e.currency ≠ "" then
    if normalizeString b.currencyNormalized = normalizeString e.currency then
      ⟨10, 10, ["Currency match: " ++ b.currencyNormalized]⟩
    else ⟨0, 10, []⟩
  else Tally.zero

/-- The transaction-date proximity bands of FlightMatcher criterion 10. -/
def flightDateBands (daysDiff : ℚ) : ℚ :=
  if daysDiff = 0 then (1:ℚ)
  else if daysDiff ≤ 2 then 95/100
  else if daysDiff ≤ 7 then 9/10
  else if daysDiff ≤ 30 then 7/10
  else if daysDiff ≤ 90 then 5/10
  else 0

def fstepDate (b : BookingData) (e : ExpenseData) : Tally :=
  if b.bookingExpectTxTimeNormalized.truthy &&
     b.bookingExpectTxTimeNormalized ≠ DateField.sentinel &&
     e.expenseDate.truthy then
    match b.bookingExpectTxTimeNormalized.timeOf, e.expenseDate.timeOf with
    | some tb, some te =>
      let daysDiff := |tb - te| / (1000 * 60 * 60 * 24)
      let dateScore := flightDateBands daysDiff
      if dateScore > 0 then
        ⟨10 * dateScore, 10,
         ["Date proximity match: " ++ numStr daysDiff ++ " days difference"]⟩
      else ⟨0, 10, []⟩
    | _, _ => ⟨0, 10, []⟩
  else Tally.zero

/-- `lowerStr` models JS `toLowerCase()` without the rest of `normalizeString`. -/
def lowerStr (s : String) : String := String.mk (s.data.map Char.toLower)

/-- The flight-booking classification heuristic shared (verbatim) by
FlightMatcher and the batch service. -/
def isFlightHeuristic (b : BookingData) : Bool :=
  lowerStr b.bookingTypeNormalized = "flight" ||
  strIncludes (lowerStr b.travelType) "flight" ||
  strIncludes (lowerStr b.travelType) "air" ||
  strIncludes (lowerStr b.merchantNormalized) "airline" ||
  strIncludes (lowerStr b.merchantNormalized) "airways" ||
  strIncludes (lowerStr b.vendor) "airline" ||
  strIncludes (lowerStr b.vendor) "airways" ||
  strIncludes (lowerStr b.merchantNormalized) "delta" ||
  strIncludes (lowerStr b.merchantNormalized) "united" ||
  strIncludes (lowerStr b.merchantNormalized) "american" ||
  (b.origin ≠ "" && b.destination ≠ "")

/-- The running totals of `calculateFlightMatchScore` over its ten criteria,
in source order. -/
def flightTally (b : BookingData) (e : ExpenseData) : Tally :=
  [fstepCarrier b e, fstepReference b e, fstepRoute b e, fstepName b e,
   fstepAmount b e, fstepCard b e, fstepHolder b e, fstepMerchant b e,
   fstepCurrency b e, fstepDate b e].foldl Tally.add Tally.zero

/-- `calculateFlightMatchScore` of FlightMatcher: normalized weighted score,
multiplied by 0.7 when the booking fails the flight classification (and the
score is positive), rounded to two decimals. -/
def calculateFlightMatchScore (b : BookingData) (e : ExpenseData) : ℚ × List String :=
  let t := flightTally b e
  let normalizedScore := ratioOf t
  let adjustedScore :=
    if !isFlightHeuristic b && normalizedScore > 0 then normalizedScore * (7/10)
    else normalizedScore
  (round2 adjustedScore, t.reasons)

/-! ## SimpleFlightMatcher — simplified strict-card-gate flight matcher -/

def commonAirlineKeywords : List String := ["air", "airline", "airways", "flight"]

def airlineNameCodePairs : List (String × String) :=
  [("delta", "dl "), ("american", "aa "), ("united", "ua "),
   ("southwest", "sw "), ("lufthansa", "lh "), ("british airways", "ba ")]

/-- `merchantMatches` of SimpleFlightMatcher. -/
def merchantMatches (booking : BookingData) (expense : ExpenseData) : Bool :=
  if (booking.merchantNormalized = "" && booking.vendor = "") || expense.vendor = "" then
    false
  else
    let bookingMerchant := normalizeString
      (if booking.merchantNormalized ≠ "" then booking.merchantNormalized else booking.vendor)
    let expenseMerchant := normalizeString expense.vendor
    if bookingMerchant = expenseMerchant then true
    else if strIncludes bookingMerchant expenseMerchant ||
            strIncludes expenseMerchant bookingMerchant then true
    else if commonAirlineKeywords.any (fun k =>
            strIncludes bookingMerchant k && strIncludes expenseMerchant k) then true
    else airlineNameCodePairs.any (fun p =>
      (strIncludes bookingMerchant p.1 && strIncludes expenseMerchant p.2) ||
      (strIncludes expenseMerchant p.1 && strIncludes bookingMerchant p.2))

/-- `amountMatches` of SimpleFlightMatcher (bands 0.98/0.9/0.8/0.7). -/
def amountMatchesSimple (booking : BookingData) (expense : ExpenseData) : ℚ :=
  match booking.amountNormalized, expense.amount with
  | some bookingAmount, some expenseAmount =>
    if bookingAmount = expenseAmount then 1
    else
      let diff := |bookingAmount - expenseAmount|
      let avgAmount := (bookingAmount + expenseAmount) / 2
      if avgAmount = 0 then 0
      else
        let percentDiff := diff / avgAmount * 100
        if percentDiff ≤ 1 then 98/100
        else if percentDiff ≤ 5 then 9/10
        else if percentDiff ≤ 10 then 8/10
        else if percentDiff ≤ 15 then 7/10
        else 0
  | _, _ => 0

/-- Renders a possibly-undefined amount inside a reason string (JS
interpolates `undefined` as the string "undefined"). -/
def optNumStr : Option ℚ → String
  | some q => numStr q
  | none => "undefined"

/-- The merchant contribution (weight 20) of the simplified matcher. -/
def simpleMerchantPart (booking : BookingData) (expense : ExpenseData) :
    ℚ × List String :=
  if merchantMatches booking expense then
    (20, ["Merchant match: " ++
      (if booking.merchantNormalized ≠ "" then booking.merchantNormalized
       else booking.vendor) ++ " / " ++ expense.vendor])
  else (0, [])

/-- The amount contribution (weight 20) of the simplified matcher. -/
def simpleAmountPart (booking : BookingData) (expense : ExpenseData) :
    ℚ × List String :=
  let amountMatchScore := amountMatchesSimple booking expense
  if amountMatchScore > 0 then
    (20 * amountMatchScore,
     [if amountMatchScore = 1 then
        "Exact amount match: " ++ optNumStr booking.amountNormalized ++ " " ++
          booking.currencyNormalized
      else
        "Close amount match (within " ++ numStr ((1 - amountMatchScore) * 100) ++
          "%): " ++ optNumStr booking.amountNormalized ++ " vs " ++
          optNumStr expense.amount])
  else (0, [])

/-- `calculateMatchScore` of SimpleFlightMatcher: card equality is a hard
gate (score 0, no reasons, when it fails); merchant adds 20, amount up to
20, out of a fixed maximum of 100. -/
def simpleCalculateMatchScore (booking : BookingData) (expense : ExpenseData) :
    ℚ × List String :=
  if booking.cardLast4Normalized = expense.cardLast4Normalized then
    let cardReasons := ["Card last 4 match: " ++ booking.cardLast4Normalized]
    let merchantPart := simpleMerchantPart booking expense
    let amountPart := simpleAmountPart booking expense
    let totalScore := 60 + merchantPart.1 + amountPart.1
    (round2 (totalScore / 100), cardReasons ++ merchantPart.2 ++ amountPart.2)
  else (0, [])

/-- The `rawData['Credit Card Network']` fix of `filterFlightBookings`. -/
def applyCardNetworkFix (b : BookingData) : BookingData :=
  if b.rawCreditCardNetwork = "MasterCard" then
    { b with cardTypeNormalized := "Mastercard" }
  else b

/-- `filterFlightBookings` of SimpleFlightMatcher. -/
def filterFlightBookings (bookings : List BookingData) : List BookingData :=
  (bookings.map applyCardNetworkFix).filter (fun b =>
    b.cardTypeNormalized = "Mastercard" && b.bookingTypeNormalized = "Flight")

/-- `expense.id || "expense-" + expenses.indexOf(expense)` (structural
`indexOf`). -/
def simpleEffExpenseId (expenses : List ExpenseData) (e : ExpenseData) : String :=
  if e.id ≠ "" then e.id else "expense-" ++ toString (expenses.indexOf e)

/-- The `flightBookings.forEach` loop of `SimpleFlightMatcher.findMatches`,
threading the `matchedExpenses` set and the accumulated matches. -/
def simpleLoop (expenses : List ExpenseData) :
    List (ℕ × BookingData) → List String → List MatchResult → List MatchResult
  | [], _, acc => acc
  | (bookingIndex, booking) :: rest, matchedExpenses, acc =>
    let bookingRef := effBookingId booking bookingIndex
    let bookingIdN :=
      if booking.bookingIdNormalized ≠ "" then booking.bookingIdNormalized
      else "[No booking ID found]"
    if !cardKnown booking.cardLast4Normalized then
      simpleLoop expenses rest matchedExpenses acc
    else
      let scoredExpenses := (expenses.filter (fun expense =>
          !matchedExpenses.contains (simpleEffExpenseId expenses expense) &&
          cardKnown expense.cardLast4Normalized)).map (fun expense =>
        let ms := simpleCalculateMatchScore booking expense
        (⟨simpleEffExpenseId expenses expense, ms.1, ms.2⟩ : ScoredCandidate))
      match pickBest scoredExpenses with
      | some bestMatch =>
        if bestMatch.score ≥ 3/10 then
          simpleLoop expenses rest (matchedExpenses ++ [bestMatch.id])
            (acc ++ [⟨bestMatch.id, bookingRef, bestMatch.score,
              bestMatch.reasons ++
                ["Links to Booking_ID_Normalized: " ++ bookingIdN]⟩])
        else simpleLoop expenses rest matchedExpenses acc
      | none => simpleLoop expenses rest matchedExpenses acc

/-- `SimpleFlightMatcher.findMatches` (threshold 0.3, booking-driven,
consumed expenses tracked in `matchedExpenses`). -/
def simpleFindMatches (bookings : List BookingData) (expenses : List ExpenseData) :
    List MatchResult :=
  simpleLoop expenses (filterFlightBookings bookings).enum [] []

/-! ## Batch matching service (the optimized service of the repository) -/

/-- Character class kept by the batch service `normalizeString`: its regex
literal is `/[^\\w\\s]/g`, whose class is the three characters backslash,
`w`, `s` — so every other character is removed. -/
def keepP0 (c : Char) : Bool := c = '\\' || c = 'w' || c = 's'

def headIsS : List Char → Bool
  | 's' :: _ => true
  | _ => false

/-- `replace(/\\s+/g, ' ')` of the batch service: a literal backslash
followed by a run of `s` becomes one space.  The flag records a run of `s`
being skipped. -/
def repBSA : Bool → List Char → List Char
  | _, [] => []
  | inRun, c :: rest =>
    if inRun && c = 's' then repBSA true rest
    else if c = '\\' && headIsS rest then ' ' :: repBSA true rest
    else c :: repBSA false rest

/-- `normalizeString` of the batch service (with its escaped-backslash regex
literals taken at face value, as the JS engine does). -/
def normalizeStringP0 (s : String) : String :=
  if s = "" then ""
  else String.mk (repBSA false (List.filter keepP0 (trimWs (s.data.map Char.toLower))))

/-- `split(/\\s+/)` of the batch service. -/
def splitBSA : Bool → List Char → List Char → List (List Char)
  | _, cur, [] => [cur.reverse]
  | inRun, cur, c :: rest =>
    if inRun && c = 's' then splitBSA true cur rest
    else if c = '\\' && headIsS rest then cur.reverse :: splitBSA true [] rest
    else splitBSA false (c :: cur) rest

def splitP0 (s : String) : List String :=
  (splitBSA false [] s.data).map String.mk

/-- `fuzzyNameMatch` of the batch service (simplified part counting). -/
def fuzzyNameMatchP0 (name1 name2 : String) : ℚ :=
  let norm1 := normalizeStringP0 name1
  let norm2 := normalizeStringP0 name2
  if norm1 = norm2 then 1
  else if strIncludes norm1 norm2 || strIncludes norm2 norm1 then 9/10
  else
    let parts1 := splitP0 norm1
    let parts2 := splitP0 norm2
    let totalParts := max parts1.length parts2.length
    let matchingParts := (parts1.filter (fun p1 => parts2.contains p1)).length
    (matchingParts : ℚ) / (totalParts : ℚ)

/-- `fuzzyAmountMatch` of the batch service — a character-identical copy of
the MatchingService one. -/
def fuzzyAmountMatchP0 (amount1 amount2 : ℚ) : ℚ :=
  fuzzyAmountMatch amount1 amount2

/-- `fuzzyStringMatch` of the batch service (word-set overlap instead of
edit distance). -/
def fuzzyStringMatchP0 (str1 str2 : String) : ℚ :=
  let norm1 := normalizeStringP0 str1
  let norm2 := normalizeStringP0 str2
  if norm1 = norm2 then 1
  else if strIncludes norm1 norm2 || strIncludes norm2 norm1 then 9/10
  else
    let words1 := (splitP0 norm1).dedup
    let words2 := (splitP0 norm2).dedup
    let overlap := (words1.filter (fun w => words2.contains w)).length
    let totalWords := words1.length + words2.length - overlap
    if totalWords > 0 then (overlap : ℚ) / (totalWords : ℚ) else 0

/-! The five criteria of `calculateGenericMatchScore`, in source order. -/

def gstepCard (b : BookingData) (e : ExpenseData) : Tally :=
  if cardKnown b.cardLast4Normalized && cardKnown e.cardLast4Normalized then
    if b.cardLast4Normalized = e.cardLast4Normalized then
      ⟨30, 30, ["Card last 4 match: " ++ b.cardLast4Normalized]⟩
    else ⟨0, 30, []⟩
  else Tally.zero

def gstepAmount (b : BookingData) (e : ExpenseData) : Tally :=
  match b.amount, e.amount with
  | some a1, some a2 =>
    let amountScore := fuzzyAmountMatchP0 a1 a2
    if amountScore > 8/10 then
      ⟨15 * amountScore, 15, ["Amount match: " ++ numStr a1 ++ " vs " ++ numStr a2]⟩
    else ⟨0, 15, []⟩
  | _, _ => Tally.zero

def gstepName (b : BookingData) (e : ExpenseData) : Tally :=
  if b.travelerName ≠ "" && e.employeeName ≠ "" then
    let nameScore := fuzzyNameMatchP0 b.travelerName e.employeeName
    if nameScore > 7/10 then
      ⟨15 * nameScore, 15, ["Name match: " ++ b.travelerName ++ " / " ++ e.employeeName]⟩
    else ⟨0, 15, []⟩
  else Tally.zero

def gstepReference (b : BookingData) (e : ExpenseData) : Tally :=
  if b.bookingReference ≠ "" && e.description ≠ "" then
    if strIncludes (normalizeStringP0 e.description) (normalizeStringP0 b.bookingReference) then
      ⟨20, 20, ["Reference match: " ++ b.bookingReference]⟩
    else ⟨0, 20, []⟩
  else Tally.zero

def gstepVendor (b : BookingData) (e : ExpenseData) : Tally :=
  if b.vendor ≠ "" && e.vendor ≠ "" then
    let vendorScore := fuzzyStringMatchP0 b.vendor e.vendor
    if vendorScore > 6/10 then
      ⟨10 * vendorScore, 10, ["Vendor match: " ++ b.vendor ++ " / " ++ e.vendor]⟩
    else ⟨0, 10, []⟩
  else Tally.zero

def genericTallyP0 (b : BookingData) (e : ExpenseData) : Tally :=
  [gstepCard b e, gstepAmount b e, gstepName b e, gstepReference b e,
   gstepVendor b e].foldl Tally.add Tally.zero

/-- `calculateGenericMatchScore` of the batch service. -/
def calculateGenericMatchScore (b : BookingData) (e : ExpenseData) : ℚ × List String :=
  let t := genericTallyP0 b e
  (round2 (ratioOf t), t.reasons)

/-- Per-booking scoring of one expense inside `processExpenseBatch`,
dispatching on the flight heuristic. -/
def scoredBookingsForBatch (bookings : List BookingData) (expense : ExpenseData) :
    List ScoredCandidate :=
  bookings.enum.map (fun p =>
    let ms :=
      if isFlightHeuristic p.2 then calculateFlightMatchScore p.2 expense
      else calculateGenericMatchScore p.2 expense
    ⟨effBookingId p.2 p.1, ms.1, ms.2⟩)

/-- The body of the index loop of `processExpenseBatch` (threshold 0.15). -/
def matchOneBatch (bookings : List BookingData) (expenses : List ExpenseData)
    (i : ℕ) : Option MatchResult :=
  match expenses[i]? with
  | none => none
  | some expense =>
    match pickBest (scoredBookingsForBatch bookings expense) with
    | some bestMatch =>
      if bestMatch.score ≥ 3/20 then
        some ⟨effExpenseId expense i, bestMatch.id, bestMatch.score, bestMatch.reasons⟩
      else none
    | none => none

/-- `processExpenseBatch` of the batch service: indices
`[startIdx, min (startIdx + batchSize) expenses.length)`. -/
def processExpenseBatch (bookings : List BookingData) (expenses : List ExpenseData)
    (startIdx batchSize : ℕ) : List MatchResult :=
  let endIdx := min (startIdx + batchSize) expenses.length
  (List.range' startIdx (endIdx - startIdx)).filterMap
    (fun i => matchOneBatch bookings expenses i)

/-- The argument of one `onProgress` invocation. -/
structure MatchingProgress where
  totalExpenses : ℕ
  processedExpenses : ℕ
  «matches» : List MatchResult
  isComplete : Bool
  deriving DecidableEq, Repr

/-- The up-front booking filter of `startMatchingProcess` (Mastercard, or any
recognized card type together with known card digits). -/
def filterValidCardBookings (bookings : List BookingData) : List BookingData :=
  bookings.filter (fun booking =>
    lowerStr booking.cardTypeNormalized = "mastercard" ||
    (booking.cardTypeNormalized ≠ "" &&
     booking.cardTypeNormalized ≠ "[No card type found]" &&
     cardKnown booking.cardLast4Normalized))

/-- The `scheduleNextBatch` loop of `startMatchingProcess`, as the sequence
of `onProgress` invocations it performs.  The `setTimeout(..., 0)` yields are
purely cooperative, so the loop is a deterministic recursion; the fuel is one
more than the number of expenses, which always suffices because each round
advances `processed` by 50. -/
def batchLoopF (fb : List BookingData) (es : List ExpenseData) :
    ℕ → ℕ → List MatchResult → List MatchingProgress
  | 0, _, _ => []
  | fuel + 1, processed, acc =>
    let total := es.length
    if processed < total then
      let batchMatches := processExpenseBatch fb es processed 50
      let processedExpenses := min (processed + 50) total
      let allMatches := acc ++ batchMatches
      ⟨total, processedExpenses, allMatches, decide (total ≤ processedExpenses)⟩ ::
        (if processedExpenses < total then batchLoopF fb es fuel processedExpenses allMatches
         else [])
    else [⟨total, total, acc, true⟩]

/-- `startMatchingProcess` of the batch service, modelled as the list of
progress reports passed to `onProgress`, in order. -/
def startMatchingProcess (bookings : List BookingData) (expenses : List ExpenseData) :
    List MatchingProgress :=
  batchLoopF (filterValidCardBookings bookings) expenses (expenses.length + 1) 0 []

/-! ## Auxiliary definitions used by the verification statements -/

/-- The effective id the batch service gives the expense at index `i`
(out-of-range indices are never reached by the loops). -/
def effExpenseIdAt (expenses : List ExpenseData) (i : ℕ) : String :=
  match expenses[i]? with
  | some e => effExpenseId e i
  | none => "expense-" ++ toString i

/-- `percentDiff` as computed by the amount matchers. -/
def percentDiffQ (a b : ℚ) : ℚ := |a - b| / ((a + b) / 2) * 100

/-- No two consecutive characters are both uppercase letters (a sufficient
syntactic reason for `extractCarrierCode` to find nothing). -/
def noAdjacentUppers : List Char → Bool
  | a :: b :: rest => !(a.isUpper && b.isUpper) && noAdjacentUppers (b :: rest)
  | _ => true

/-- Concrete fixtures used in witnesses and counterexamples. -/

def bVendorOnly : BookingData := { vendor := "delta" }

def eVendorOnly : ExpenseData := { vendor := "delta" }

def eVendorOnly2 : ExpenseData := { vendor := "delta", id := "e2" }

def bCardOnly : BookingData := { cardLast4Normalized := "1234" }

def eCardOnly : ExpenseData := { cardLast4Normalized := "1234" }

def bSimpleMC : BookingData :=
  { cardTypeNormalized := "Mastercard", bookingTypeNormalized := "Flight",
    cardLast4Normalized := "1234" }

def bEmptyB : BookingData := {}

def eEmptyE : ExpenseData := {}

/-- Two MatchResults that share one bookingId (possible because the
expense-driven passes never mark bookings as consumed). -/
def dupMatches : List MatchResult :=
  [⟨"a", "booking-0", 1, []⟩, ⟨"b", "booking-0", 1, []⟩]

/-- The match that `matchBookingsWithExpenses [bVendorOnly] [eVendorOnly]`
emits. -/
def mW1 : MatchResult :=
  ⟨"expense-0", "booking-0", 1/2, ["Vendor match: delta / delta"]⟩

/-- The match that `simpleFindMatches [bSimpleMC] [eCardOnly]` emits. -/
def mW2 : MatchResult :=
  ⟨"expense-0", "booking-0", 6/10,
   ["Card last 4 match: 1234", "Links to Booking_ID_Normalized: [No booking ID found]"]⟩

/-- The match that `processExpenseBatch [bCardOnly] [eCardOnly] 0 50` emits. -/
def mW3 : MatchResult :=
  ⟨"expense-0", "booking-0", 1, ["Card last 4 match: 1234"]⟩

/-- Well-formedness of a running tally: the accumulated total is nonnegative
and never exceeds the accumulated maximum-possible total. -/
def TallyOk (t : Tally) : Prop := 0 ≤ t.total ∧ t.total ≤ t.maxPossible

/-! ## Basic lemmas about the string utilities -/

lemma containsSub_nil (l : List Char) : containsSub [] l = true := by
  cases l <;> simp [containsSub, pfxL, List.isEmpty]

lemma pfxL_self_append (l m : List Char) : pfxL l (l ++ m) = true := by
  induction l with
  | nil => rfl
  | cons a as ih => simp [pfxL, ih]

lemma pfx_mismatch_ne : ∀ (p s t : List Char),
    pfxL p s = true → mismatchL p t = true → s ≠ t := by
  intro p
  induction p with
  | nil => intro s t _ hm; cases hm
  | cons a as ih =>
    intro s t hp hm
    cases s with
    | nil => cases hp
    | cons b bs =>
      cases t with
      | nil => cases hm
      | cons c cs =>
        simp only [pfxL, Bool.and_eq_true, decide_eq_true_eq] at hp
        simp only [mismatchL, Bool.or_eq_true, decide_eq_true_eq] at hm
        intro heq
        injection heq with hbc hbscs
        rcases hm with hm | hm
        · exact hm (by rw [hp.1, hbc])
        · exact ih bs cs hp.2 hm hbscs

lemma pfx_mismatch_ne_str (p s t : String)
    (hp : pfxL p.data s.data = true) (hm : mismatchL p.data t.data = true) :
    s ≠ t := by
  intro h
  exact pfx_mismatch_ne p.data s.data t.data hp hm (by rw [h])

lemma tagged_ne (tag x : String) (t : String)
    (hm : mismatchL tag.data t.data = true) : tag ++ x ≠ t := by
  apply pfx_mismatch_ne_str tag _ _ _ hm
  rw [String.data_append]
  exact pfxL_self_append _ _

/-! ## Bounds for the rounding and ratio helpers -/

lemma round2_bounds (q : ℚ) (h0 : 0 ≤ q) (h1 : q ≤ 1) :
    0 ≤ round2 q ∧ round2 q ≤ 1 := by
  unfold round2
  have hlo : (0:ℤ) ≤ ⌊q * 100 + 1/2⌋ := by
    apply Int.le_floor.mpr
    push_cast
    linarith
  have hhi : ⌊q * 100 + 1/2⌋ ≤ 100 := by
    have h2 : ⌊q * 100 + 1/2⌋ ≤ ⌊(100:ℚ) + 1/2⌋ := by
      apply Int.floor_le_floor
      linarith
    have h3 : ⌊(100:ℚ) + 1/2⌋ = 100 := by
      rw [Int.floor_eq_iff]
      norm_num
    omega
  constructor
  · apply div_nonneg _ (by norm_num)
    exact_mod_cast hlo
  · rw [div_le_one (by norm_num)]
    exact_mod_cast hhi

lemma ratioOf_bounds (t : Tally) (h : TallyOk t) : 0 ≤ ratioOf t ∧ ratioOf t ≤ 1 := by
  unfold ratioOf
  split
  · constructor
    · exact div_nonneg h.1 (le_of_lt (by assumption))
    · rw [div_le_one (by assumption)]
      exact h.2
  · norm_num

lemma tallyAdd_ok {a b : Tally} (ha : TallyOk a) (hb : TallyOk b) :
    TallyOk (a.add b) := by
  obtain ⟨ha1, ha2⟩ := ha
  obtain ⟨hb1, hb2⟩ := hb
  exact ⟨by simpa [Tally.add] using add_nonneg ha1 hb1,
         by simp [Tally.add]; linarith⟩

lemma tallyZero_ok : TallyOk Tally.zero := by
  constructor <;> simp [Tally.zero]

/-! ## Bounds for the fuzzy comparison helpers -/

lemma natdiv_le_one {a b : ℕ} (h : a ≤ b) : (a:ℚ) / (b:ℚ) ≤ 1 := by
  rcases Nat.eq_zero_or_pos b with hb | hb
  · subst hb
    simp
  · rw [div_le_one (by exact_mod_cast hb)]
    exact_mod_cast h

lemma fuzzyNameMatch_le_one (a b : String) : fuzzyNameMatch a b ≤ 1 := by
  simp only [fuzzyNameMatch]
  split
  · norm_num
  split
  · norm_num
  apply natdiv_le_one
  calc (List.filter _ (splitWs (normalizeString a))).length
      ≤ (splitWs (normalizeString a)).length := List.length_filter_le _ _
    _ ≤ max (splitWs (normalizeString a)).length (splitWs (normalizeString b)).length :=
        le_max_left _ _

lemma fuzzyStringMatch_le_one (a b : String) : fuzzyStringMatch a b ≤ 1 := by
  simp only [fuzzyStringMatch]
  split
  · norm_num
  split
  · norm_num
  have h : (0:ℚ) ≤ (levenshteinDistance (normalizeString a) (normalizeString b) : ℚ) /
      ((max (normalizeString a).length (normalizeString b).length : ℕ) : ℚ) := by
    positivity
  linarith

lemma fuzzyStringMatchFM_le_one (a b : String) : fuzzyStringMatchFM a b ≤ 1 := by
  simp only [fuzzyStringMatchFM]
  split
  · norm_num
  · exact fuzzyStringMatch_le_one a b

lemma fuzzyAmountMatch_le_one (a b : ℚ) : fuzzyAmountMatch a b ≤ 1 := by
  simp only [fuzzyAmountMatch]
  repeat' split
  all_goals norm_num

lemma matchDates_le_one (b : BookingData) (e : ExpenseData) : matchDates b e ≤ 1 := by
  simp only [matchDates]
  repeat' split
  all_goals norm_num

lemma amountMatchesSimple_le_one (b : BookingData) (e : ExpenseData) :
    amountMatchesSimple b e ≤ 1 := by
  simp only [amountMatchesSimple]
  repeat' split
  all_goals norm_num

lemma fuzzyFlightAmountMatch_le_one (x y : Option ℚ) :
    (fuzzyFlightAmountMatch x y).1 ≤ 1 := by
  simp only [fuzzyFlightAmountMatch]
  repeat' split
  all_goals norm_num

lemma routeLegScore_le_one (x y : String) : routeLegScore x y ≤ 1 := by
  unfold routeLegScore
  split
  · exact fuzzyStringMatchFM_le_one x y
  · norm_num

lemma matchFlightRoute_le_one (b : BookingData) (e : ExpenseData) :
    (matchFlightRoute b e).1 ≤ 1 := by
  have ho := routeLegScore_le_one b.origin e.origin
  have hd := routeLegScore_le_one b.destination e.destination
  simp only [matchFlightRoute]
  split
  · norm_num
  · simp only
    split
    · linarith
    split
    · linarith
    split
    · linarith
    · norm_num

lemma flightDateBands_le_one (d : ℚ) : flightDateBands d ≤ 1 := by
  simp only [flightDateBands]
  repeat' split
  all_goals norm_num

/-! ## Per-criterion well-formedness of the running tallies -/

lemma stepReference_ok (b : BookingData) (e : ExpenseData) : TallyOk (stepReference b e) := by
  unfold TallyOk stepReference
  repeat' split
  all_goals exact ⟨by norm_num [Tally.zero], by norm_num [Tally.zero]⟩

lemma stepName_ok (b : BookingData) (e : ExpenseData) : TallyOk (stepName b e) := by
  have hle := fuzzyNameMatch_le_one b.travelerName e.employeeName
  unfold TallyOk stepName
  dsimp only
  split
  · split
    · rename_i h
      constructor
      · simp only
        linarith
      · simp only
        linarith
    · simp
  · simp [Tally.zero]

lemma stepAmount_ok (b : BookingData) (e : ExpenseData) : TallyOk (stepAmount b e) := by
  unfold TallyOk stepAmount
  dsimp only
  split
  · rename_i a1 a2 heq1 heq2
    have hle := fuzzyAmountMatch_le_one a1 a2
    split
    · rename_i h
      exact ⟨by simp only; linarith, by simp only; linarith⟩
    · simp
  · simp [Tally.zero]

lemma stepCard_ok (b : BookingData) (e : ExpenseData) : TallyOk (stepCard b e) := by
  unfold TallyOk stepCard
  repeat' split
  all_goals exact ⟨by norm_num [Tally.zero], by norm_num [Tally.zero]⟩

lemma stepTravelType_ok (b : BookingData) (e : ExpenseData) : TallyOk (stepTravelType b e) := by
  unfold TallyOk stepTravelType
  repeat' split
  all_goals exact ⟨by norm_num [Tally.zero], by norm_num [Tally.zero]⟩

lemma stepVendor_ok (b : BookingData) (e : ExpenseData) : TallyOk (stepVendor b e) := by
  have hle := fuzzyStringMatch_le_one b.vendor e.vendor
  unfold TallyOk stepVendor
  dsimp only
  split
  · split
    · rename_i h
      exact ⟨by simp only; linarith, by simp only; linarith⟩
    · simp
  · simp [Tally.zero]

lemma stepDate_ok (b : BookingData) (e : ExpenseData) : TallyOk (stepDate b e) := by
  have hle := matchDates_le_one b e
  unfold TallyOk stepDate
  dsimp only
  split
  · rename_i h
    exact ⟨by simp only; linarith, by simp only; linarith⟩
  · simp

lemma stepOrigin_ok (b : BookingData) (e : ExpenseData) : TallyOk (stepOrigin b e) := by
  have hle := fuzzyStringMatch_le_one b.origin e.origin
  unfold TallyOk stepOrigin
  dsimp only
  split
  · split
    · rename_i h
      exact ⟨by simp only; linarith, by simp only; linarith⟩
    · simp
  · simp [Tally.zero]

lemma stepDest_ok (b : BookingData) (e : ExpenseData) : TallyOk (stepDest b e) := by
  have hle := fuzzyStringMatch_le_one b.destination e.destination
  unfold TallyOk stepDest
  dsimp only
  split
  · split
    · rename_i h
      exact ⟨by simp only; linarith, by simp only; linarith⟩
    · simp
  · simp [Tally.zero]

lemma fstepCarrier_ok (b : BookingData) (e : ExpenseData) : TallyOk (fstepCarrier b e) := by
  unfold TallyOk fstepCarrier
  repeat' split
  all_goals exact ⟨by norm_num [Tally.zero], by norm_num [Tally.zero]⟩

lemma fstepReference_ok (b : BookingData) (e : ExpenseData) : TallyOk (fstepReference b e) := by
  unfold TallyOk fstepReference
  dsimp only
  repeat' split
  all_goals exact ⟨by norm_num [Tally.zero], by norm_num [Tally.zero]⟩

lemma fstepRoute_ok (b : BookingData) (e : ExpenseData) : TallyOk (fstepRoute b e) := by
  have hle := matchFlightRoute_le_one b e
  unfold TallyOk fstepRoute
  dsimp only
  split
  · rename_i h
    exact ⟨by simp only; linarith, by simp only; linarith⟩
  · simp [Tally.zero]

lemma fstepName_ok (b : BookingData) (e : ExpenseData) : TallyOk (fstepName b e) := by
  have hle := fuzzyStringMatchFM_le_one b.travelerNameNormalized e.employeeName
  unfold TallyOk fstepName
  dsimp only
  split
  · split
    · rename_i h
      exact ⟨by simp only; linarith, by simp only; linarith⟩
    · simp
  · simp [Tally.zero]

lemma fstepAmount_ok (b : BookingData) (e : ExpenseData) : TallyOk (fstepAmount b e) := by
  unfold TallyOk fstepAmount
  dsimp only
  split
  · rename_i ba ea heq1 heq2
    have hle := fuzzyFlightAmountMatch_le_one (some ba) (some ea)
    split
    · rename_i h
      exact ⟨by simp only; linarith, by simp only; linarith⟩
    · simp
  · simp [Tally.zero]

lemma fstepCard_ok (b : BookingData) (e : ExpenseData) : TallyOk (fstepCard b e) := by
  unfold TallyOk fstepCard
  repeat' split
  all_goals exact ⟨by norm_num [Tally.zero], by norm_num [Tally.zero]⟩

lemma fstepHolder_ok (b : BookingData) (e : ExpenseData) : TallyOk (fstepHolder b e) := by
  have hle := fuzzyStringMatchFM_le_one b.cardHolderNameNormalized e.employeeName
  unfold TallyOk fstepHolder
  dsimp only
  split
  · split
    · rename_i h
      exact ⟨by simp only; linarith, by simp only; linarith⟩
    · simp
  · simp [Tally.zero]

lemma fstepMerchant_ok (b : BookingData) (e : ExpenseData) : TallyOk (fstepMerchant b e) := by
  have hle := fuzzyStringMatchFM_le_one b.merchantNormalized e.vendor
  unfold TallyOk fstepMerchant
  dsimp only
  split
  · split
    · rename_i h
      exact ⟨by simp only; linarith, by simp only; linarith⟩
    · simp
  · simp [Tally.zero]

lemma fstepCurrency_ok (b : BookingData) (e : ExpenseData) : TallyOk (fstepCurrency b e) := by
  unfold TallyOk fstepCurrency
  repeat' split
  all_goals exact ⟨by norm_num [Tally.zero], by norm_num [Tally.zero]⟩

lemma fstepDate_ok (b : BookingData) (e : ExpenseData) : TallyOk (fstepDate b e) := by
  unfold TallyOk fstepDate
  dsimp only
  split
  · split
    · rename_i tb te heq1 heq2
      have hle := flightDateBands_le_one (|tb - te| / (1000 * 60 * 60 * 24))
      split
      · rename_i h
        exact ⟨by simp only; linarith, by simp only; linarith⟩
      · simp
    · simp
  · simp [Tally.zero]

/-! ## Whole-tally bounds -/

lemma genericTally_ok (b : BookingData) (e : ExpenseData) : TallyOk (genericTally b e) := by
  simp only [genericTally, List.foldl]
  exact tallyAdd_ok (tallyAdd_ok (tallyAdd_ok (tallyAdd_ok (tallyAdd_ok (tallyAdd_ok
    (tallyAdd_ok (tallyAdd_ok (tallyAdd_ok tallyZero_ok (stepReference_ok b e))
      (stepName_ok b e)) (stepAmount_ok b e)) (stepCard_ok b e)) (stepTravelType_ok b e))
        (stepVendor_ok b e)) (stepDate_ok b e)) (stepOrigin_ok b e)) (stepDest_ok b e)

lemma flightTally_ok (b : BookingData) (e : ExpenseData) : TallyOk (flightTally b e) := by
  simp only [flightTally, List.foldl]
  exact tallyAdd_ok (tallyAdd_ok (tallyAdd_ok (tallyAdd_ok (tallyAdd_ok (tallyAdd_ok
    (tallyAdd_ok (tallyAdd_ok (tallyAdd_ok (tallyAdd_ok tallyZero_ok (fstepCarrier_ok b e))
      (fstepReference_ok b e)) (fstepRoute_ok b e)) (fstepName_ok b e)) (fstepAmount_ok b e))
        (fstepCard_ok b e)) (fstepHolder_ok b e)) (fstepMerchant_ok b e))
          (fstepCurrency_ok b e)) (fstepDate_ok b e)

lemma calculateMatchScore_bounds (b : BookingData) (e : ExpenseData) :
    0 ≤ (calculateMatchScore b e).1 ∧ (calculateMatchScore b e).1 ≤ 1 := by
  have h := ratioOf_bounds _ (genericTally_ok b e)
  have h2 := round2_bounds _ h.1 h.2
  simpa [calculateMatchScore] using h2

lemma calculateFlightMatchScore_bounds (b : BookingData) (e : ExpenseData) :
    0 ≤ (calculateFlightMatchScore b e).1 ∧ (calculateFlightMatchScore b e).1 ≤ 1 := by
  have h := ratioOf_bounds _ (flightTally_ok b e)
  simp only [calculateFlightMatchScore]
  split
  · rename_i hpen
    exact round2_bounds _ (by linarith [h.1]) (by linarith [h.2])
  · exact round2_bounds _ h.1 h.2

lemma simpleMerchantPart_fst (b : BookingData) (e : ExpenseData) :
    0 ≤ (simpleMerchantPart b e).1 ∧ (simpleMerchantPart b e).1 ≤ 20 := by
  unfold simpleMerchantPart
  split <;> exact ⟨by norm_num, by norm_num⟩

lemma simpleAmountPart_fst (b : BookingData) (e : ExpenseData) :
    0 ≤ (simpleAmountPart b e).1 ∧ (simpleAmountPart b e).1 ≤ 20 := by
  have hs := amountMatchesSimple_le_one b e
  unfold simpleAmountPart
  dsimp only
  split
  · rename_i h
    exact ⟨by simp only; linarith, by simp only; linarith⟩
  · exact ⟨by norm_num, by norm_num⟩

lemma simpleCalculateMatchScore_bounds (b : BookingData) (e : ExpenseData) :
    0 ≤ (simpleCalculateMatchScore b e).1 ∧ (simpleCalculateMatchScore b e).1 ≤ 1 := by
  have hm := simpleMerchantPart_fst b e
  have ha := simpleAmountPart_fst b e
  simp only [simpleCalculateMatchScore]
  split
  · dsimp only
    apply round2_bounds
    · apply div_nonneg _ (by norm_num)
      linarith [hm.1, ha.1]
    · rw [div_le_one (by norm_num)]
      linarith [hm.2, ha.2]
  · norm_num

/-! ## Lemmas about the greedy selection and the assignment loops -/

lemma foldl_pick_mem (rest : List ScoredCandidate) :
    ∀ a, rest.foldl (fun b x => if x.score > b.score then x else b) a ∈ a :: rest := by
  induction rest with
  | nil => intro a; simp
  | cons y ys ih =>
    intro a
    have h := ih (if y.score > a.score then y else a)
    simp only [List.foldl]
    rcases List.mem_cons.mp h with h1 | h1
    · rw [h1]
      split
      · exact List.mem_cons_of_mem _ (List.mem_cons_self _ _)
      · exact List.mem_cons_self _ _
    · exact List.mem_cons_of_mem _ (List.mem_cons_of_mem _ h1)

lemma pickBest_mem (l : List ScoredCandidate) (s : ScoredCandidate)
    (h : pickBest l = some s) : s ∈ l := by
  cases l with
  | nil => cases h
  | cons a rest =>
    simp only [pickBest, Option.some.injEq] at h
    rw [← h]
    exact foldl_pick_mem rest a

lemma filterMap_map_sublist {α β γ : Type} (l : List α) (f : α → Option β)
    (g : β → γ) (h : α → γ) (hfg : ∀ a b, f a = some b → g b = h a) :
    List.Sublist ((l.filterMap f).map g) (l.map h) := by
  induction l with
  | nil => simp
  | cons a l ih =>
    cases hfa : f a with
    | none =>
      simp only [List.filterMap_cons, hfa, List.map_cons]
      exact List.Sublist.cons _ ih
    | some b =>
      simp only [List.filterMap_cons, hfa, List.map_cons]
      rw [hfg a b hfa]
      exact List.Sublist.cons₂ _ ih

lemma matchOneExpense_some (bookings : List BookingData) (e : ExpenseData) (i : ℕ)
    (r : MatchResult) (h : matchOneExpense bookings e i = some r) :
    r.expenseId = effExpenseId e i ∧ 3/10 ≤ r.matchConfidence := by
  unfold matchOneExpense at h
  split at h
  · rename_i bm hbm
    split at h
    · rename_i hge
      cases h
      exact ⟨rfl, hge⟩
    · cases h
  · cases h

lemma matchOneBatch_some (bookings : List BookingData) (expenses : List ExpenseData)
    (i : ℕ) (r : MatchResult) (h : matchOneBatch bookings expenses i = some r) :
    r.expenseId = effExpenseIdAt expenses i ∧ 3/20 ≤ r.matchConfidence := by
  unfold matchOneBatch at h
  split at h
  · cases h
  · rename_i e heq
    split at h
    · rename_i bm hbm
      split at h
      · rename_i hge
        cases h
        refine ⟨?_, hge⟩
        unfold effExpenseIdAt
        rw [heq]
      · cases h
    · cases h

lemma simpleLoop_conf (expenses : List ExpenseData) :
    ∀ (l : List (ℕ × BookingData)) (matched : List String) (acc : List MatchResult),
    (∀ r ∈ acc, 3/10 ≤ r.matchConfidence) →
    ∀ r ∈ simpleLoop expenses l matched acc, 3/10 ≤ r.matchConfidence := by
  intro l
  induction l with
  | nil =>
    intro matched acc hacc r hr
    simp only [simpleLoop] at hr
    exact hacc r hr
  | cons p rest ih =>
    obtain ⟨idx, booking⟩ := p
    intro matched acc hacc r hr
    simp only [simpleLoop] at hr
    split at hr
    · exact ih matched acc hacc r hr
    · split at hr
      · rename_i bestMatch hbm
        split at hr
        · rename_i hge
          refine ih _ _ ?_ r hr
          intro r2 hr2
          rcases List.mem_append.mp hr2 with h2 | h2
          · exact hacc r2 h2
          · rw [List.mem_singleton.mp h2]
            exact hge
        · exact ih matched acc hacc r hr
      · exact ih matched acc hacc r hr

lemma simpleLoop_expenseIds_nodup (expenses : List ExpenseData) :
    ∀ (l : List (ℕ × BookingData)) (matched : List String) (acc : List MatchResult),
    ((acc.map MatchResult.expenseId).Nodup) →
    (∀ r ∈ acc, r.expenseId ∈ matched) →
    ((simpleLoop expenses l matched acc).map MatchResult.expenseId).Nodup := by
  intro l
  induction l with
  | nil =>
    intro matched acc hacc _
    simpa only [simpleLoop] using hacc
  | cons p rest ih =>
    obtain ⟨idx, booking⟩ := p
    intro matched acc hacc hmem
    simp only [simpleLoop]
    split
    · exact ih matched acc hacc hmem
    · split
      · rename_i bestMatch hbm
        have hbmem := pickBest_mem _ _ hbm
        rcases List.mem_map.mp hbmem with ⟨expense, hexp, heq⟩
        have hpred := (List.mem_filter.mp hexp).2
        rw [Bool.and_eq_true] at hpred
        have hid : bestMatch.id = simpleEffExpenseId expenses expense := by
          rw [← heq]
        have hcont : matched.contains (simpleEffExpenseId expenses expense) = false := by
          simpa using hpred.1
        have hnotm : bestMatch.id ∉ matched := by
          rw [hid]
          intro hin
          have h2 : matched.contains (simpleEffExpenseId expenses expense) = true :=
            List.elem_iff.mpr hin
          rw [hcont] at h2
          cases h2
        split
        · rename_i hge
          refine ih _ _ ?_ ?_
          · rw [List.map_append]
            rw [List.nodup_append]
            refine ⟨hacc, by simp, ?_⟩
            intro a ha
            simp only [List.map_cons, List.map_nil, List.mem_singleton]
            intro hb
            rcases List.mem_map.mp ha with ⟨r2, hr2, hr2id⟩
            subst hb
            exact hnotm (by rw [← hr2id]; exact hmem r2 hr2)
          · intro r2 hr2
            rcases List.mem_append.mp hr2 with h2 | h2
            · exact List.mem_append_left _ (hmem r2 h2)
            · rw [List.mem_singleton.mp h2]
              exact List.mem_append_right _ (List.mem_singleton.mpr rfl)
        · exact ih matched acc hacc hmem
      · exact ih matched acc hacc hmem

lemma simpleLoop_bookingIds_sublist (expenses : List ExpenseData) :
    ∀ (l : List (ℕ × BookingData)) (matched : List String) (acc : List MatchResult),
    List.Sublist ((simpleLoop expenses l matched acc).map MatchResult.bookingId)
      ((acc.map MatchResult.bookingId) ++ l.map (fun p => effBookingId p.2 p.1)) := by
  intro l
  induction l with
  | nil =>
    intro matched acc
    simp only [simpleLoop, List.map_nil, List.append_nil]
    exact List.Sublist.refl _
  | cons p rest ih =>
    obtain ⟨idx, booking⟩ := p
    intro matched acc
    simp only [simpleLoop, List.map_cons]
    have hskip : List.Sublist ((acc.map MatchResult.bookingId) ++
        rest.map (fun p => effBookingId p.2 p.1))
        ((acc.map MatchResult.bookingId) ++ effBookingId booking idx ::
          rest.map (fun p => effBookingId p.2 p.1)) :=
      List.Sublist.append_left (List.sublist_cons_self _ _) _
    split
    · exact (ih matched acc).trans hskip
    · split
      · rename_i bestMatch hbm
        split
        · rename_i hge
          have h := ih (matched ++ [bestMatch.id])
            (acc ++ [⟨bestMatch.id, effBookingId booking idx, bestMatch.score,
              bestMatch.reasons ++
                ["Links to Booking_ID_Normalized: " ++
                  (if booking.bookingIdNormalized ≠ "" then booking.bookingIdNormalized
                   else "[No booking ID found]")]⟩])
          simpa [List.map_append] using h
        · exact (ih matched acc).trans hskip
      · exact (ih matched acc).trans hskip

/-! ## Lemmas about the batch scheduler loop -/

lemma range_filterMap_split (fb : List BookingData) (es : List ExpenseData)
    {a b n : ℕ} (hab : a ≤ b) (hbn : b ≤ n) :
    (List.range' a (n - a)).filterMap (matchOneBatch fb es) =
      (List.range' a (b - a)).filterMap (matchOneBatch fb es) ++
      (List.range' b (n - b)).filterMap (matchOneBatch fb es) := by
  rw [← List.filterMap_append]
  congr 1
  have h := List.range'_append a (b - a) (n - b) 1
  simp only [one_mul] at h
  rw [Nat.add_sub_cancel' hab] at h
  have h2 : (n - b) + (b - a) = n - a := by omega
  rw [h2] at h
  exact h.symm

lemma batchLoopF_decomp (fb : List BookingData) (es : List ExpenseData) :
    ∀ (fuel processed : ℕ) (acc : List MatchResult),
    es.length - processed ≤ fuel → 1 ≤ fuel →
    ∃ pre, batchLoopF fb es fuel processed acc =
      pre ++ [⟨es.length, es.length,
        acc ++ (List.range' processed (es.length - processed)).filterMap
          (matchOneBatch fb es), true⟩] := by
  intro fuel
  induction fuel with
  | zero =>
    intro processed acc h1 h2
    exact absurd h2 (by omega)
  | succ fuel ih =>
    intro processed acc h1 _
    simp only [batchLoopF]
    split
    · rename_i hlt
      split
      · rename_i hlt2
        obtain ⟨pre, hpre⟩ := ih (min (processed + 50) es.length)
          (acc ++ processExpenseBatch fb es processed 50) (by omega) (by omega)
        refine ⟨⟨es.length, min (processed + 50) es.length,
          acc ++ processExpenseBatch fb es processed 50,
          decide (es.length ≤ min (processed + 50) es.length)⟩ :: pre, ?_⟩
        rw [hpre]
        have hbatch : processExpenseBatch fb es processed 50 =
            (List.range' processed (min (processed + 50) es.length - processed)).filterMap
              (matchOneBatch fb es) := rfl
        rw [List.cons_append]
        congr 3
        rw [hbatch, List.append_assoc, ← range_filterMap_split fb es (by omega)
          (by omega)]
      · rename_i hlt2
        refine ⟨[], ?_⟩
        have hp : min (processed + 50) es.length = es.length := by omega
        have hbatch : processExpenseBatch fb es processed 50 =
            (List.range' processed (es.length - processed)).filterMap
              (matchOneBatch fb es) := by
          unfold processExpenseBatch
          rw [hp]
        simp [List.nil_append, hp, hbatch]
    · rename_i hge
      refine ⟨[], ?_⟩
      have hz : es.length - processed = 0 := by omega
      rw [hz]
      simp [List.range']

lemma batchLoopF_length (fb : List BookingData) (es : List ExpenseData) :
    ∀ (fuel processed : ℕ) (acc : List MatchResult),
    processed < es.length → es.length - processed ≤ fuel →
    (batchLoopF fb es fuel processed acc).length = (es.length - processed + 49) / 50 := by
  intro fuel
  induction fuel with
  | zero =>
    intro processed acc h1 h2
    omega
  | succ fuel ih =>
    intro processed acc h1 h2
    simp only [batchLoopF]
    rw [if_pos h1]
    split
    · rename_i hlt2
      rw [List.length_cons, ih _ _ hlt2 (by omega)]
      omega
    · rename_i hlt2
      simp only [List.length_cons, List.length_nil]
      omega

lemma batchLoopF_fields (fb : List BookingData) (es : List ExpenseData) :
    ∀ (fuel processed : ℕ) (acc : List MatchResult),
    es.length - processed ≤ fuel → 1 ≤ fuel →
    ∀ p ∈ batchLoopF fb es fuel processed acc,
      p.totalExpenses = es.length ∧
      (p.isComplete = true ↔ p.processedExpenses = es.length) := by
  intro fuel
  induction fuel with
  | zero =>
    intro processed acc h1 h2
    exact absurd h2 (by omega)
  | succ fuel ih =>
    intro processed acc h1 _
    simp only [batchLoopF]
    split
    · rename_i hlt
      intro p hp
      rcases List.mem_cons.mp hp with h | h
      · subst h
        refine ⟨rfl, ?_⟩
        simp only [decide_eq_true_eq]
        omega
      · revert h
        split
        · rename_i hlt2
          intro h
          exact ih _ _ (by omega) (by omega) p h
        · intro h
          cases h
    · intro p hp
      rw [List.mem_singleton.mp hp]
      exact ⟨rfl, ⟨fun _ => rfl, fun _ => rfl⟩⟩

/-! ## Reason strings of the generic criteria never collide with the date tag -/

lemma stepReference_ne_date (b : BookingData) (e : ExpenseData) :
    ∀ s ∈ (stepReference b e).reasons, s ≠ "Date alignment" := by
  intro s hs
  simp only [stepReference] at hs
  split at hs
  · split at hs
    · rw [List.mem_singleton.mp hs]
      exact tagged_ne "Reference match: " _ _ (by decide)
    · cases hs
  · cases hs

lemma stepName_ne_date (b : BookingData) (e : ExpenseData) :
    ∀ s ∈ (stepName b e).reasons, s ≠ "Date alignment" := by
  intro s hs
  simp only [stepName] at hs
  split at hs
  · split at hs
    · rw [List.mem_singleton.mp hs]
      simp only [String.append_assoc]
      exact tagged_ne "Name match: " _ _ (by decide)
    · cases hs
  · cases hs

lemma stepAmount_ne_date (b : BookingData) (e : ExpenseData) :
    ∀ s ∈ (stepAmount b e).reasons, s ≠ "Date alignment" := by
  intro s hs
  simp only [stepAmount] at hs
  split at hs
  · split at hs
    · rw [List.mem_singleton.mp hs]
      simp only [String.append_assoc]
      exact tagged_ne "Amount match: " _ _ (by decide)
    · cases hs
  · cases hs

lemma stepCard_ne_date (b : BookingData) (e : ExpenseData) :
    ∀ s ∈ (stepCard b e).reasons, s ≠ "Date alignment" := by
  intro s hs
  simp only [stepCard] at hs
  split at hs
  · split at hs
    · rw [List.mem_singleton.mp hs]
      exact tagged_ne "Card last 4 match: " _ _ (by decide)
    · cases hs
  · cases hs

lemma stepTravelType_ne_date (b : BookingData) (e : ExpenseData) :
    ∀ s ∈ (stepTravelType b e).reasons, s ≠ "Date alignment" := by
  intro s hs
  simp only [stepTravelType] at hs
  split at hs
  · split at hs
    · rw [List.mem_singleton.mp hs]
      simp only [String.append_assoc]
      exact tagged_ne "Travel type match: " _ _ (by decide)
    · cases hs
  · cases hs

lemma stepVendor_ne_date (b : BookingData) (e : ExpenseData) :
    ∀ s ∈ (stepVendor b e).reasons, s ≠ "Date alignment" := by
  intro s hs
  simp only [stepVendor] at hs
  split at hs
  · split at hs
    · rw [List.mem_singleton.mp hs]
      simp only [String.append_assoc]
      exact tagged_ne "Vendor match: " _ _ (by decide)
    · cases hs
  · cases hs

lemma stepOrigin_ne_date (b : BookingData) (e : ExpenseData) :
    ∀ s ∈ (stepOrigin b e).reasons, s ≠ "Date alignment" := by
  intro s hs
  simp only [stepOrigin] at hs
  split at hs
  · split at hs
    · rw [List.mem_singleton.mp hs]
      simp only [String.append_assoc]
      exact tagged_ne "Origin match: " _ _ (by decide)
    · cases hs
  · cases hs

lemma stepDest_ne_date (b : BookingData) (e : ExpenseData) :
    ∀ s ∈ (stepDest b e).reasons, s ≠ "Date alignment" := by
  intro s hs
  simp only [stepDest] at hs
  split at hs
  · split at hs
    · rw [List.mem_singleton.mp hs]
      simp only [String.append_assoc]
      exact tagged_ne "Destination match: " _ _ (by decide)
    · cases hs
  · cases hs

/-! ## Claim theorems -/

/-- C3: in the simplified strict-gate flight variant
(`SimpleFlightMatcher.calculateMatchScore`), whenever both `cardLast4` values
are known and differ, the pair scores exactly 0 with an empty reason list,
regardless of every other criterion. -/
theorem C3_simple_card_gate (b : BookingData) (e : ExpenseData)
    (hb : cardKnown b.cardLast4Normalized = true)
    (he : cardKnown e.cardLast4Normalized = true)
    (hne : b.cardLast4Normalized ≠ e.cardLast4Normalized) :
    simpleCalculateMatchScore b e = (0, []) := by
  unfold simpleCalculateMatchScore
  rw [if_neg hne]

/-- Witness for C3 at a concrete pair with known, different card digits. -/
theorem C3_simple_card_gate_witness :
    cardKnown bCardOnly.cardLast4Normalized = true ∧
    cardKnown ({ cardLast4Normalized := "9999" } : ExpenseData).cardLast4Normalized = true ∧
    bCardOnly.cardLast4Normalized ≠
      ({ cardLast4Normalized := "9999" } : ExpenseData).cardLast4Normalized ∧
    simpleCalculateMatchScore bCardOnly { cardLast4Normalized := "9999" } = (0, []) :=
  ⟨by decide, by decide, by decide,
   C3_simple_card_gate _ _ (by decide) (by decide) (by decide)⟩

/-- C7 counterexample: the claim says empty-vs-nonempty returns 0, but the
generic `fuzzyStringMatch` returns 0.9 for `"" / "abc"` (the empty normalized
string is a JS-substring of everything), and the FlightMatcher variant does
the same for a raw-nonempty input that normalizes to empty (`"!!!"`). -/
theorem C7_counterexample :
    normalizeString "" = "" ∧ normalizeString "abc" ≠ "" ∧
    fuzzyStringMatch "" "abc" = 9/10 ∧ ((9:ℚ)/10) ≠ 0 ∧
    normalizeString "!!!" = "" ∧ "!!!" ≠ "" ∧
    fuzzyStringMatchFM "!!!" "abc" = 9/10 :=
  ⟨by decide, by decide, by decide, by norm_num, by decide, by decide, by decide⟩

lemma str_data_ne_nil {s : String} (h : s ≠ "") : s.data ≠ [] := by
  intro hd
  apply h
  cases s with
  | mk d =>
    cases hd
    rfl

/-- C7 amended: `fuzzyStringMatch` returns 1.0 on equal normalized strings,
0.9 on containment — including the degenerate case where one side normalizes
to the empty string (so empty-vs-nonempty yields 0.9, not 0), and otherwise
`1 − editDistance/max(len)`; the FlightMatcher variant returns 0 only when a
RAW input is empty and otherwise agrees with the generic function. -/
theorem C7_fuzzy_string_amended :
    (∀ s1 s2 : String, normalizeString s1 = normalizeString s2 →
      fuzzyStringMatch s1 s2 = 1) ∧
    (∀ s1 s2 : String, normalizeString s1 = "" → normalizeString s2 ≠ "" →
      fuzzyStringMatch s1 s2 = 9/10 ∧ fuzzyStringMatch s2 s1 = 9/10) ∧
    (∀ s2 : String, fuzzyStringMatchFM "" s2 = 0 ∧ fuzzyStringMatchFM s2 "" = 0) ∧
    (∀ s1 s2 : String, s1 ≠ "" → s2 ≠ "" →
      fuzzyStringMatchFM s1 s2 = fuzzyStringMatch s1 s2) ∧
    (∀ s1 s2 : String, normalizeString s1 ≠ normalizeString s2 →
      strIncludes (normalizeString s1) (normalizeString s2) = false →
      strIncludes (normalizeString s2) (normalizeString s1) = false →
      fuzzyStringMatch s1 s2 =
        1 - (levenshteinDistance (normalizeString s1) (normalizeString s2) : ℚ) /
          ((max (normalizeString s1).length (normalizeString s2).length : ℕ) : ℚ)) := by
  refine ⟨?_, ?_, ?_, ?_, ?_⟩
  · intro s1 s2 h
    simp only [fuzzyStringMatch]
    rw [if_pos h]
  · intro s1 s2 h1 h2
    have hne : ¬(normalizeString s1 = normalizeString s2) := by
      rw [h1]
      exact fun hh => h2 hh.symm
    have hinc : strIncludes (normalizeString s2) (normalizeString s1) = true := by
      unfold strIncludes
      rw [h1]
      exact containsSub_nil _
    constructor
    · simp only [fuzzyStringMatch]
      rw [if_neg hne, if_pos (by rw [hinc]; simp)]
    · simp only [fuzzyStringMatch]
      rw [if_neg (fun hh => hne hh.symm), if_pos (by rw [hinc]; simp)]
  · intro s2
    constructor
    · unfold fuzzyStringMatchFM
      rw [if_pos (by simp)]
    · unfold fuzzyStringMatchFM
      rw [if_pos (by simp)]
  · intro s1 s2 h1 h2
    unfold fuzzyStringMatchFM
    rw [if_neg (by simp [h1, h2])]
  · intro s1 s2 h1 h2 h3
    simp only [fuzzyStringMatch]
    rw [if_neg h1, if_neg (by rw [h2, h3]; simp)]

/-- Witness for C7 amended at concrete inputs. -/
theorem C7_fuzzy_string_amended_witness :
    normalizeString "" = "" ∧ normalizeString "abc" ≠ "" ∧
    fuzzyStringMatch "" "abc" = 9/10 ∧
    normalizeString "Delta " = normalizeString "delta" ∧
    fuzzyStringMatch "Delta " "delta" = 1 ∧
    ("x" : String) ≠ "" ∧ ("y" : String) ≠ "" ∧
    fuzzyStringMatchFM "x" "y" = fuzzyStringMatch "x" "y" :=
  ⟨by decide, by decide, ((C7_fuzzy_string_amended.2.1) "" "abc" (by decide) (by decide)).1,
   by decide, (C7_fuzzy_string_amended.1) "Delta " "delta" (by decide),
   by decide, by decide, (C7_fuzzy_string_amended.2.2.2.1) "x" "y" (by decide) (by decide)⟩

lemma findCarrier_none_of_noAdjacentUppers :
    ∀ (l : List Char) (prevW : Bool),
    noAdjacentUppers l = true → findCarrier prevW l = none := by
  intro l
  induction l with
  | nil => intro prevW _; rfl
  | cons c1 rest ih =>
    intro prevW hna
    cases rest with
    | nil => rfl
    | cons c2 rest2 =>
      have hna2 : noAdjacentUppers (c2 :: rest2) = true := by
        simp only [noAdjacentUppers, Bool.and_eq_true] at hna
        exact hna.2
      have hnadj : (c1.isUpper && c2.isUpper) = false := by
        simp only [noAdjacentUppers, Bool.and_eq_true, Bool.not_eq_true'] at hna
        exact hna.1
      unfold findCarrier
      rw [if_neg]
      · exact ih _ hna2
      · intro hcond
        simp only [Bool.and_eq_true] at hcond
        rw [hcond.1.1.2, hcond.1.2] at hnadj
        simp at hnadj

/-- C8 counterexample: `extractCarrierCode "AA1234"` is `null` (the `\b`
between the letters and the digits never matches without whitespace), even
though the claim requires the code `"AA"` for that very input; conversely
`"AA 12"` has no 3–4-digit group, yet the code returns `"AA"`. -/
theorem C8_counterexample :
    extractCarrierCode "AA1234" = none ∧ extractCarrierCode "AA 12" = some "AA" :=
  ⟨by decide, by decide⟩

/-- C8 amended: `extractCarrierCode` returns the two letters only when they
sit at a word boundary and are followed by at least one whitespace character
and then at least one digit ("AA 1234", "AA 12"); adjacent digits with no
whitespace ("AA1234") and text without any adjacent uppercase pair yield
`null`. -/
theorem C8_extract_carrier_amended :
    extractCarrierCode "AA 1234" = some "AA" ∧
    extractCarrierCode "AA 12" = some "AA" ∧
    extractCarrierCode "AA1234" = none ∧
    extractCarrierCode "" = none ∧
    extractCarrierCode "Flight to New York" = none ∧
    extractCarrierCode "SFO to JFK" = none ∧
    (∀ s : String, noAdjacentUppers s.data = true → extractCarrierCode s = none) := by
  refine ⟨by decide, by decide, by decide, by decide, by decide, by decide, ?_⟩
  intro s h
  unfold extractCarrierCode
  split
  · rfl
  · exact findCarrier_none_of_noAdjacentUppers _ _ h

/-- Witness for C8 amended at a concrete string with no adjacent capitals. -/
theorem C8_extract_carrier_amended_witness :
    noAdjacentUppers ("no capitals 123" : String).data = true ∧
    extractCarrierCode "no capitals 123" = none :=
  ⟨by decide, C8_extract_carrier_amended.2.2.2.2.2.2 "no capitals 123" (by decide)⟩

/-- C10: `getMatchStatistics` computes `unmatchedBookings` as
`bookings.length − matches.length` (and symmetrically for expenses); with a
bookingId repeated across two MatchResults this count is −1 on one booking,
disagreeing with `getUnmatchedBookings`, which returns the empty list. -/
theorem C10_statistics_unmatched_mismatch :
    (∀ (bookings : List BookingData) (expenses : List ExpenseData)
      (ms : List MatchResult),
      (getMatchStatistics bookings expenses ms).unmatchedBookings =
        (bookings.length : ℤ) - (ms.length : ℤ) ∧
      (getMatchStatistics bookings expenses ms).unmatchedExpenses =
        (expenses.length : ℤ) - (ms.length : ℤ)) ∧
    ¬ (dupMatches.map MatchResult.bookingId).Nodup ∧
    (getMatchStatistics [bVendorOnly] [] dupMatches).unmatchedBookings = -1 ∧
    (getUnmatchedBookings [bVendorOnly] dupMatches).length = 0 ∧
    (getMatchStatistics [bVendorOnly] [] dupMatches).unmatchedBookings ≠
      ((getUnmatchedBookings [bVendorOnly] dupMatches).length : ℤ) ∧
    (getMatchStatistics [bVendorOnly] [] dupMatches).unmatchedBookings < 0 := by
  refine ⟨?_, by decide, by decide, by decide, by decide, by decide⟩
  intro bookings expenses ms
  exact ⟨rfl, rfl⟩

lemma mismatch_pfx_append_false :
    ∀ (p t x : List Char), mismatchL p t = true → pfxL p (t ++ x) = false := by
  intro p
  induction p with
  | nil => intro t x hm; cases hm
  | cons a as ih =>
    intro t x hm
    cases t with
    | nil => cases hm
    | cons b bs =>
      simp only [mismatchL, Bool.or_eq_true, decide_eq_true_eq] at hm
      simp only [List.cons_append, pfxL]
      rcases hm with hm | hm
      · simp [hm]
      · have h2 : pfxL as (bs ++ x) = false := ih bs x hm
        simp only [List.append_eq] at h2
        simp [h2]

lemma tag_pfx_false (p t x : String) (hm : mismatchL p.data t.data = true) :
    pfxL p.data (t ++ x).data = false := by
  rw [String.data_append]
  exact mismatch_pfx_append_false _ _ _ hm

lemma pfx_append_of_pfx : ∀ (p t x : List Char),
    pfxL p t = true → pfxL p (t ++ x) = true := by
  intro p
  induction p with
  | nil => intro t x _; rfl
  | cons a as ih =>
    intro t x hp
    cases t with
    | nil => cases hp
    | cons b bs =>
      simp only [pfxL, Bool.and_eq_true] at hp
      simp only [List.cons_append, pfxL, Bool.and_eq_true]
      exact ⟨hp.1, ih bs x hp.2⟩

/-- C6: the flight amount matcher returns 0 when either amount is undefined
and 1.0 on exact equality; the percent-difference bands (≤1, ≤5, ≤10, ≤15)
run first and never produce the partial-payment reason; only when every band
fails and `y/x` is within 0.05 of 0.5 does it return the fixed 0.7 with the
distinct partial-payment reason; otherwise 0. -/
theorem C6_flight_amount_bands :
    (∀ x y : Option ℚ, (x = none ∨ y = none) → fuzzyFlightAmountMatch x y = (0, none)) ∧
    (∀ a : ℚ, fuzzyFlightAmountMatch (some a) (some a) = (1, some "Exact amount match")) ∧
    (∀ a b : ℚ, a ≠ b → (a + b) / 2 ≠ 0 → percentDiffQ a b ≤ 15 →
      ((fuzzyFlightAmountMatch (some a) (some b)).1 = 98/100 ∨
       (fuzzyFlightAmountMatch (some a) (some b)).1 = 9/10 ∨
       (fuzzyFlightAmountMatch (some a) (some b)).1 = 85/100 ∨
       (fuzzyFlightAmountMatch (some a) (some b)).1 = 75/100) ∧
      (∀ r, (fuzzyFlightAmountMatch (some a) (some b)).2 = some r →
        pfxL "Possible partial payment".data r.data = false)) ∧
    (∀ a b : ℚ, a ≠ b → (a + b) / 2 ≠ 0 → 15 < percentDiffQ a b →
      |b / a - 1/2| < 1/20 →
      (fuzzyFlightAmountMatch (some a) (some b)).1 = 7/10 ∧
      ∃ r, (fuzzyFlightAmountMatch (some a) (some b)).2 = some r ∧
        pfxL "Possible partial payment".data r.data = true) ∧
    (∀ a b : ℚ, a ≠ b → (a + b) / 2 ≠ 0 → 15 < percentDiffQ a b →
      ¬(|b / a - 1/2| < 1/20) → fuzzyFlightAmountMatch (some a) (some b) = (0, none)) ∧
    (∀ a b : ℚ, a ≠ b → (a + b) / 2 = 0 →
      fuzzyFlightAmountMatch (some a) (some b) = (0, none)) := by
  have habs : ∀ a b : ℚ, a ≠ b → ¬(|a - b| = 0) := by
    intro a b hne
    simp only [abs_eq_zero, sub_eq_zero]
    exact hne
  refine ⟨?_, ?_, ?_, ?_, ?_, ?_⟩
  · intro x y h
    rcases h with h | h
    · subst h
      rfl
    · subst h
      cases x <;> rfl
  · intro a
    simp [fuzzyFlightAmountMatch]
  · intro a b hne havg hpd
    unfold percentDiffQ at hpd
    simp only [fuzzyFlightAmountMatch]
    rw [if_neg (habs a b hne), if_neg havg]
    constructor
    · split_ifs with h1 h2 h3
      · simp
      · simp
      · simp
      · simp
    · intro r
      split_ifs with h1 h2 h3
      all_goals intro hr
      all_goals cases hr
      all_goals simp only [String.append_assoc]
      · exact tag_pfx_false _ _ _ (by decide)
      · exact tag_pfx_false _ _ _ (by decide)
      · exact tag_pfx_false _ _ _ (by decide)
      · exact tag_pfx_false _ _ _ (by decide)
  · intro a b hne havg hpd hhalf
    unfold percentDiffQ at hpd
    simp only [fuzzyFlightAmountMatch]
    rw [if_neg (habs a b hne), if_neg havg,
      if_neg (by linarith), if_neg (by linarith), if_neg (by linarith),
      if_neg (by linarith), if_pos hhalf]
    refine ⟨rfl, "Possible partial payment match (expense is ~50% of booking): " ++
      numStr a ++ " vs " ++ numStr b, rfl, ?_⟩
    simp only [String.append_assoc]
    rw [String.data_append]
    exact pfx_append_of_pfx _ _ _ (by decide)
  · intro a b hne havg hpd hnhalf
    unfold percentDiffQ at hpd
    simp only [fuzzyFlightAmountMatch]
    rw [if_neg (habs a b hne), if_neg havg,
      if_neg (by linarith), if_neg (by linarith), if_neg (by linarith),
      if_neg (by linarith), if_neg hnhalf]
  · intro a b hne havg
    have ha : a ≠ 0 := by
      intro h0
      apply hne
      have : b = -a := by linarith [havg]
      rw [this, h0]
      norm_num
    have hb : b = -a := by
      have h2 : a + b = 0 := by linarith
      linarith
    simp only [fuzzyFlightAmountMatch]
    rw [if_neg (habs a b hne), if_pos havg, if_neg]
    rw [hb, neg_div, div_self ha]
    decide

/-- Witness for C6 at concrete amounts: a 1%-band pair, a partial-payment
pair, a no-match pair, an exact pair and an undefined side. -/
theorem C6_flight_amount_bands_witness :
    ((100:ℚ) ≠ 101 ∧ ((100:ℚ) + 101) / 2 ≠ 0 ∧ percentDiffQ 100 101 ≤ 15 ∧
      ((fuzzyFlightAmountMatch (some 100) (some 101)).1 = 98/100 ∨
       (fuzzyFlightAmountMatch (some 100) (some 101)).1 = 9/10 ∨
       (fuzzyFlightAmountMatch (some 100) (some 101)).1 = 85/100 ∨
       (fuzzyFlightAmountMatch (some 100) (some 101)).1 = 75/100)) ∧
    ((100:ℚ) ≠ 50 ∧ ((100:ℚ) + 50) / 2 ≠ 0 ∧ 15 < percentDiffQ 100 50 ∧
      |((50:ℚ)) / 100 - 1/2| < 1/20 ∧
      (fuzzyFlightAmountMatch (some 100) (some 50)).1 = 7/10) ∧
    ((100:ℚ) ≠ 300 ∧ 15 < percentDiffQ 100 300 ∧ ¬(|((300:ℚ)) / 100 - 1/2| < 1/20) ∧
      fuzzyFlightAmountMatch (some 100) (some 300) = (0, none)) ∧
    fuzzyFlightAmountMatch (some 42) (some 42) = (1, some "Exact amount match") ∧
    fuzzyFlightAmountMatch none (some 7) = (0, none) := by
  refine ⟨⟨by norm_num, by norm_num, by decide, ?_⟩,
          ⟨by norm_num, by norm_num, by decide, by decide, ?_⟩,
          ⟨by norm_num, by decide, by decide, ?_⟩, ?_, ?_⟩
  · exact (C6_flight_amount_bands.2.2.1 100 101 (by norm_num) (by norm_num) (by decide)).1
  · exact (C6_flight_amount_bands.2.2.2.1 100 50 (by norm_num) (by norm_num)
      (by decide) (by decide)).1
  · exact C6_flight_amount_bands.2.2.2.2.1 100 300 (by norm_num) (by norm_num)
      (by decide) (by decide)
  · exact C6_flight_amount_bands.2.1 42
  · exact C6_flight_amount_bands.1 none (some 7) (Or.inl rfl)

/-- C5 counterexample: for a booking that fails the flight classification,
`calculateFlightMatchScore` is NOT `round2 (total / maxPossible)` — the 0.7
penalty multiplies the quotient first: a card-only pair tallies 30/30 yet
scores 0.7, not 1.0. -/
theorem C5_counterexample :
    isFlightHeuristic bCardOnly = false ∧
    flightTally bCardOnly eCardOnly = ⟨30, 30, ["Card last 4 match: 1234"]⟩ ∧
    round2 (ratioOf (flightTally bCardOnly eCardOnly)) = 1 ∧
    (calculateFlightMatchScore bCardOnly eCardOnly).1 = 7/10 ∧
    (calculateFlightMatchScore bCardOnly eCardOnly).1 ≠
      round2 (ratioOf (flightTally bCardOnly eCardOnly)) :=
  ⟨by decide, by decide, by decide, by decide, by decide⟩

/-- C5 amended: all three scorers stay within [0, 1]; the generic and simple
scorers equal the rounded quotient of their running totals; the flight scorer
equals the rounded quotient only for flight-classified bookings and otherwise
rounds the quotient multiplied by 0.7; a zero maximum-possible total (which
can happen for the flight tally, never for the generic one whose date weight
is unconditional) yields score 0. -/
theorem C5_score_bounds_amended (b : BookingData) (e : ExpenseData) :
    (0 ≤ (calculateMatchScore b e).1 ∧ (calculateMatchScore b e).1 ≤ 1) ∧
    (0 ≤ (calculateFlightMatchScore b e).1 ∧ (calculateFlightMatchScore b e).1 ≤ 1) ∧
    (0 ≤ (simpleCalculateMatchScore b e).1 ∧ (simpleCalculateMatchScore b e).1 ≤ 1) ∧
    (calculateMatchScore b e).1 = round2 (ratioOf (genericTally b e)) ∧
    (isFlightHeuristic b = true →
      (calculateFlightMatchScore b e).1 = round2 (ratioOf (flightTally b e))) ∧
    (isFlightHeuristic b = false → 0 < ratioOf (flightTally b e) →
      (calculateFlightMatchScore b e).1 =
        round2 (ratioOf (flightTally b e) * (7/10))) ∧
    ((flightTally b e).maxPossible = 0 → (calculateFlightMatchScore b e).1 = 0) ∧
    10 ≤ (genericTally b e).maxPossible := by
  refine ⟨calculateMatchScore_bounds b e, calculateFlightMatchScore_bounds b e,
    simpleCalculateMatchScore_bounds b e, rfl, ?_, ?_, ?_, ?_⟩
  · intro h
    simp [calculateFlightMatchScore, h]
  · intro h1 h2
    simp [calculateFlightMatchScore, h1, h2]
  · intro h
    have hr : ratioOf (flightTally b e) = 0 := by
      unfold ratioOf
      rw [if_neg (by rw [h]; norm_num)]
    simp only [calculateFlightMatchScore, hr]
    rw [if_neg (by simp)]
    decide
  · have hmax : ∀ t : Tally, TallyOk t → 0 ≤ t.maxPossible := fun t ht =>
      le_trans ht.1 ht.2
    have hd : (stepDate b e).maxPossible = 10 := by
      unfold stepDate
      dsimp only
      split <;> rfl
    have h1 := hmax _ (stepReference_ok b e)
    have h2 := hmax _ (stepName_ok b e)
    have h3 := hmax _ (stepAmount_ok b e)
    have h4 := hmax _ (stepCard_ok b e)
    have h5 := hmax _ (stepTravelType_ok b e)
    have h6 := hmax _ (stepVendor_ok b e)
    have h8 := hmax _ (stepOrigin_ok b e)
    have h9 := hmax _ (stepDest_ok b e)
    simp only [genericTally, List.foldl, Tally.add, Tally.zero]
    linarith [hd]

/-- Witness for C5 amended: the flight score formula at a flight-classified
booking, at a penalized non-flight booking, and at a pair with an empty
flight tally. -/
theorem C5_score_bounds_amended_witness :
    isFlightHeuristic bSimpleMC = true ∧
    (calculateFlightMatchScore bSimpleMC eCardOnly).1 =
      round2 (ratioOf (flightTally bSimpleMC eCardOnly)) ∧
    isFlightHeuristic bCardOnly = false ∧
    0 < ratioOf (flightTally bCardOnly eCardOnly) ∧
    (calculateFlightMatchScore bCardOnly eCardOnly).1 =
      round2 (ratioOf (flightTally bCardOnly eCardOnly) * (7/10)) ∧
    (flightTally bEmptyB eEmptyE).maxPossible = 0 ∧
    (calculateFlightMatchScore bEmptyB eEmptyE).1 = 0 :=
  ⟨by decide,
   (C5_score_bounds_amended bSimpleMC eCardOnly).2.2.2.2.1 (by decide),
   by decide, by decide,
   (C5_score_bounds_amended bCardOnly eCardOnly).2.2.2.2.2.1 (by decide) (by decide),
   by decide,
   (C5_score_bounds_amended bEmptyB eEmptyE).2.2.2.2.2.2.1 (by decide)⟩

/-- C2 counterexample: for an otherwise-identical vendor-matching pair with
no dates anywhere, the date criterion is inapplicable yet its weight 10 is
still added to the maximum-possible total, so the source scores the pair 0.5
while the spec-neutral scoring (date weight counted only when applicable)
scores it 1.0 — the absent field does affect the returned score. -/
theorem C2_counterexample :
    validTimes [bVendorOnly.bookingDate, bVendorOnly.departureDate,
      bVendorOnly.returnDate] = [] ∧
    validTimes [eVendorOnly.expenseDate, eVendorOnly.startDate,
      eVendorOnly.endDate] = [] ∧
    genericTally bVendorOnly eVendorOnly = ⟨10, 20, ["Vendor match: delta / delta"]⟩ ∧
    genericTallySpecNeutral bVendorOnly eVendorOnly =
      ⟨10, 10, ["Vendor match: delta / delta"]⟩ ∧
    (calculateMatchScore bVendorOnly eVendorOnly).1 = 1/2 ∧
    (calculateMatchScoreSpecNeutral bVendorOnly eVendorOnly).1 = 1 ∧
    (calculateMatchScore bVendorOnly eVendorOnly).1 ≠
      (calculateMatchScoreSpecNeutral bVendorOnly eVendorOnly).1 :=
  ⟨by decide, by decide, by decide, by decide, by decide, by decide, by decide⟩

/-- C2 amended: every guarded criterion of the generic scorer is fully
neutral when its field is missing on either side (no reason, no contribution
to the total or to the maximum-possible total); the date criterion emits no
reason and contributes nothing to the total when no valid date pair exists,
but its weight 10 is always added to the maximum-possible total, so missing
dates do lower the final score. -/
theorem C2_missing_field_neutrality_amended (b : BookingData) (e : ExpenseData) :
    ((b.bookingReference = "" ∨ e.description = "") → stepReference b e = Tally.zero) ∧
    ((b.travelerName = "" ∨ e.employeeName = "") → stepName b e = Tally.zero) ∧
    ((b.amount = none ∨ e.amount = none) → stepAmount b e = Tally.zero) ∧
    ((cardKnown b.cardLast4Normalized = false ∨ cardKnown e.cardLast4Normalized = false) →
      stepCard b e = Tally.zero) ∧
    ((b.travelType = "" ∨ e.expenseType = "") → stepTravelType b e = Tally.zero) ∧
    ((b.vendor = "" ∨ e.vendor = "") → stepVendor b e = Tally.zero) ∧
    ((b.origin = "" ∨ e.origin = "") → stepOrigin b e = Tally.zero) ∧
    ((b.destination = "" ∨ e.destination = "") → stepDest b e = Tally.zero) ∧
    ((validTimes [b.bookingDate, b.departureDate, b.returnDate] = [] ∨
      validTimes [e.expenseDate, e.startDate, e.endDate] = []) →
      stepDate b e = ⟨0, 10, []⟩ ∧
      "Date alignment" ∉ (calculateMatchScore b e).2) ∧
    (calculateMatchScore b e).2 = (genericTally b e).reasons := by
  refine ⟨?_, ?_, ?_, ?_, ?_, ?_, ?_, ?_, ?_, rfl⟩
  · intro h
    unfold stepReference
    rcases h with h | h <;> simp [h]
  · intro h
    unfold stepName
    rcases h with h | h <;> simp [h]
  · intro h
    unfold stepAmount
    rcases h with h | h
    · rw [h]
    · rw [h]
      cases b.amount <;> rfl
  · intro h
    unfold stepCard
    rcases h with h | h <;> simp [h]
  · intro h
    unfold stepTravelType
    rcases h with h | h <;> simp [h]
  · intro h
    unfold stepVendor
    rcases h with h | h <;> simp [h]
  · intro h
    unfold stepOrigin
    rcases h with h | h <;> simp [h]
  · intro h
    unfold stepDest
    rcases h with h | h <;> simp [h]
  · intro h
    have hmd : matchDates b e = 0 := by
      unfold matchDates
      rw [if_pos h]
    have hsd : stepDate b e = ⟨0, 10, []⟩ := by
      unfold stepDate
      rw [hmd]
      norm_num
    refine ⟨hsd, ?_⟩
    intro hmem
    simp only [calculateMatchScore, genericTally, List.foldl, Tally.add, Tally.zero,
      hsd, List.append_assoc, List.nil_append, List.append_nil,
      List.mem_append] at hmem
    rcases hmem with h1 | h2 | h3 | h4 | h5 | h6 | h8 | h9
    · exact stepReference_ne_date b e _ h1 rfl
    · exact stepName_ne_date b e _ h2 rfl
    · exact stepAmount_ne_date b e _ h3 rfl
    · exact stepCard_ne_date b e _ h4 rfl
    · exact stepTravelType_ne_date b e _ h5 rfl
    · exact stepVendor_ne_date b e _ h6 rfl
    · exact stepOrigin_ne_date b e _ h8 rfl
    · exact stepDest_ne_date b e _ h9 rfl

/-- Witness for C2 amended at a concrete pair missing a reference, a name,
amounts, cards, types, origins, destinations and all dates. -/
theorem C2_missing_field_neutrality_amended_witness :
    (bVendorOnly.bookingReference = "" ∨ eVendorOnly.description = "") ∧
    stepReference bVendorOnly eVendorOnly = Tally.zero ∧
    (bVendorOnly.travelerName = "" ∨ eVendorOnly.employeeName = "") ∧
    stepName bVendorOnly eVendorOnly = Tally.zero ∧
    (validTimes [bVendorOnly.bookingDate, bVendorOnly.departureDate,
        bVendorOnly.returnDate] = [] ∨
      validTimes [eVendorOnly.expenseDate, eVendorOnly.startDate,
        eVendorOnly.endDate] = []) ∧
    stepDate bVendorOnly eVendorOnly = ⟨0, 10, []⟩ ∧
    "Date alignment" ∉ (calculateMatchScore bVendorOnly eVendorOnly).2 :=
  ⟨Or.inl rfl,
   (C2_missing_field_neutrality_amended bVendorOnly eVendorOnly).1 (Or.inl rfl),
   Or.inl rfl,
   (C2_missing_field_neutrality_amended bVendorOnly eVendorOnly).2.1 (Or.inl rfl),
   Or.inl (by decide),
   ((C2_missing_field_neutrality_amended bVendorOnly eVendorOnly).2.2.2.2.2.2.2.2.1
     (Or.inl (by decide))).1,
   ((C2_missing_field_neutrality_amended bVendorOnly eVendorOnly).2.2.2.2.2.2.2.2.1
     (Or.inl (by decide))).2⟩

/-- C1 counterexample: `matchBookingsWithExpenses` never marks a booking as
consumed, so two expenses both match the single booking and its bookingId
appears in two MatchResults of one run. -/
theorem C1_counterexample :
    matchBookingsWithExpenses [bVendorOnly] [eVendorOnly, eVendorOnly2] =
      [⟨"expense-0", "booking-0", 1/2, ["Vendor match: delta / delta"]⟩,
       ⟨"e2", "booking-0", 1/2, ["Vendor match: delta / delta"]⟩] ∧
    ¬ ((matchBookingsWithExpenses [bVendorOnly] [eVendorOnly, eVendorOnly2]).map
        MatchResult.bookingId).Nodup :=
  ⟨by decide, by decide⟩

/-- C1 amended: within one run, the DRIVING side is matched at most once —
no expenseId repeats in `matchBookingsWithExpenses` or in the batch pass
(given pairwise-distinct effective expense ids), and in
`SimpleFlightMatcher.findMatches` no expenseId repeats (unconditionally, via
the consumed-expenses set) and no bookingId repeats (given distinct effective
booking ids); but the booking side of the expense-driven passes may repeat,
as the counterexample shows. -/
theorem C1_at_most_one_amended (bookings : List BookingData)
    (expenses : List ExpenseData) :
    ((expenses.enum.map (fun p => effExpenseId p.2 p.1)).Nodup →
      ((matchBookingsWithExpenses bookings expenses).map MatchResult.expenseId).Nodup) ∧
    ((simpleFindMatches bookings expenses).map MatchResult.expenseId).Nodup ∧
    (((filterFlightBookings bookings).enum.map (fun p => effBookingId p.2 p.1)).Nodup →
      ((simpleFindMatches bookings expenses).map MatchResult.bookingId).Nodup) ∧
    (∀ startIdx batchSize : ℕ,
      ((List.range' startIdx (min (startIdx + batchSize) expenses.length - startIdx)).map
        (effExpenseIdAt expenses)).Nodup →
      ((processExpenseBatch bookings expenses startIdx batchSize).map
        MatchResult.expenseId).Nodup) := by
  refine ⟨?_, ?_, ?_, ?_⟩
  · intro H
    have hs := filterMap_map_sublist expenses.enum
      (fun p => matchOneExpense bookings p.2 p.1) MatchResult.expenseId
      (fun p => effExpenseId p.2 p.1)
      (fun p r hr => (matchOneExpense_some bookings p.2 p.1 r hr).1)
    exact List.Nodup.sublist hs H
  · exact simpleLoop_expenseIds_nodup expenses _ [] [] (by simp) (by simp)
  · intro H
    have hs := simpleLoop_bookingIds_sublist expenses
      ((filterFlightBookings bookings).enum) [] []
    simp only [List.map_nil, List.nil_append] at hs
    exact List.Nodup.sublist hs H
  · intro s k H
    have hs := filterMap_map_sublist
      (List.range' s (min (s + k) expenses.length - s))
      (matchOneBatch bookings expenses) MatchResult.expenseId
      (effExpenseIdAt expenses)
      (fun i r hr => (matchOneBatch_some bookings expenses i r hr).1)
    exact List.Nodup.sublist hs H

/-- Witness for C1 amended at concrete runs with distinct effective ids. -/
theorem C1_at_most_one_amended_witness :
    (([eVendorOnly, eVendorOnly2].enum.map (fun p => effExpenseId p.2 p.1)).Nodup) ∧
    ((matchBookingsWithExpenses [bVendorOnly] [eVendorOnly, eVendorOnly2]).map
      MatchResult.expenseId).Nodup ∧
    (((filterFlightBookings [bSimpleMC]).enum.map (fun p => effBookingId p.2 p.1)).Nodup) ∧
    ((simpleFindMatches [bSimpleMC] [eCardOnly]).map MatchResult.bookingId).Nodup ∧
    ((List.range' 0 (min (0 + 50) ([eCardOnly] : List ExpenseData).length - 0)).map
      (effExpenseIdAt [eCardOnly])).Nodup ∧
    ((processExpenseBatch [bCardOnly] [eCardOnly] 0 50).map MatchResult.expenseId).Nodup :=
  ⟨by decide,
   (C1_at_most_one_amended [bVendorOnly] [eVendorOnly, eVendorOnly2]).1 (by decide),
   by decide,
   (C1_at_most_one_amended [bSimpleMC] [eCardOnly]).2.2.1 (by decide),
   by decide,
   (C1_at_most_one_amended [bCardOnly] [eCardOnly]).2.2.2 0 50 (by decide)⟩

/-- C4: every emitted MatchResult respects the call-site threshold — 0.3 in
`matchBookingsWithExpenses` and `SimpleFlightMatcher.findMatches`, 0.15 in
the batch pass — and a driving expense whose best candidate scores below 0.3
produces no MatchResult at all. -/
theorem C4_threshold_respect (bookings : List BookingData)
    (expenses : List ExpenseData) :
    (∀ m ∈ matchBookingsWithExpenses bookings expenses, 3/10 ≤ m.matchConfidence) ∧
    (∀ m ∈ simpleFindMatches bookings expenses, 3/10 ≤ m.matchConfidence) ∧
    (∀ startIdx batchSize : ℕ,
      ∀ m ∈ processExpenseBatch bookings expenses startIdx batchSize,
        3/20 ≤ m.matchConfidence) ∧
    (∀ (expense : ExpenseData) (expenseIdx : ℕ),
      (∀ c ∈ scoredBookingsFor bookings expense, c.score < 3/10) →
      matchOneExpense bookings expense expenseIdx = none) := by
  refine ⟨?_, ?_, ?_, ?_⟩
  · intro m hm
    rcases List.mem_filterMap.mp hm with ⟨p, _, hsome⟩
    exact (matchOneExpense_some bookings p.2 p.1 m hsome).2
  · intro m hm
    exact simpleLoop_conf expenses _ [] [] (by simp) m hm
  · intro s k m hm
    rcases List.mem_filterMap.mp hm with ⟨i, _, hsome⟩
    exact (matchOneBatch_some bookings expenses i m hsome).2
  · intro expense i hlt
    rcases hpb : pickBest (scoredBookingsFor bookings expense) with _ | bm
    · simp [matchOneExpense, hpb]
    · have hb := hlt bm (pickBest_mem _ _ hpb)
      simp only [matchOneExpense, hpb]
      rw [if_neg (by linarith)]

/-- Witness for C4 at concrete runs that actually emit matches, plus a
driving expense whose best candidate stays below the threshold. -/
theorem C4_threshold_respect_witness :
    mW1 ∈ matchBookingsWithExpenses [bVendorOnly] [eVendorOnly] ∧
    3/10 ≤ mW1.matchConfidence ∧
    mW2 ∈ simpleFindMatches [bSimpleMC] [eCardOnly] ∧
    3/10 ≤ mW2.matchConfidence ∧
    mW3 ∈ processExpenseBatch [bCardOnly] [eCardOnly] 0 50 ∧
    3/20 ≤ mW3.matchConfidence ∧
    (∀ c ∈ scoredBookingsFor [bEmptyB] eEmptyE, c.score < 3/10) ∧
    matchOneExpense [bEmptyB] eEmptyE 0 = none :=
  ⟨by decide,
   (C4_threshold_respect [bVendorOnly] [eVendorOnly]).1 mW1 (by decide),
   by decide,
   (C4_threshold_respect [bSimpleMC] [eCardOnly]).2.1 mW2 (by decide),
   by decide,
   (C4_threshold_respect [bCardOnly] [eCardOnly]).2.2.1 0 50 mW3 (by decide),
   by decide,
   (C4_threshold_respect [bEmptyB] []).2.2.2 eEmptyE 0 (by decide)⟩

/-- C9 counterexample: for one expense (one chunk) the progress callback is
invoked exactly once — the final chunk report itself carries
`isComplete = true`; there is no additional separate final invocation, so
the claimed "once per chunk and once finally" (at least two calls) is false. -/
theorem C9_counterexample :
    startMatchingProcess [] [eCardOnly] =
      [⟨1, 1, [], true⟩] ∧
    (startMatchingProcess [] [eCardOnly]).length = 1 :=
  ⟨by decide, by decide⟩

/-- C9 amended: bookings are filtered once up front (pre-filtering is a
no-op); the expenses are processed in chunks of 50; the callback is invoked
`⌈n/50⌉` times for n > 0 — the final chunk report has `isComplete = true` and
carries all accumulated matches, equal to one whole-collection pass — and an
empty expense collection produces exactly one `{0, 0, [], true}` report. -/
theorem C9_batch_progress_amended (bookings : List BookingData)
    (expenses : List ExpenseData) :
    (expenses = [] → startMatchingProcess bookings expenses = [⟨0, 0, [], true⟩]) ∧
    (expenses ≠ [] → (startMatchingProcess bookings expenses).length =
      (expenses.length + 49) / 50) ∧
    (∀ p ∈ startMatchingProcess bookings expenses,
      p.totalExpenses = expenses.length ∧
      (p.isComplete = true ↔ p.processedExpenses = expenses.length)) ∧
    ((startMatchingProcess bookings expenses).getLast? =
      some ⟨expenses.length, expenses.length,
        processExpenseBatch (filterValidCardBookings bookings) expenses 0
          expenses.length, true⟩) ∧
    (startMatchingProcess bookings expenses =
      startMatchingProcess (filterValidCardBookings bookings) expenses) := by
  have hfull : processExpenseBatch (filterValidCardBookings bookings) expenses 0
      expenses.length =
      (List.range' 0 (expenses.length - 0)).filterMap
        (matchOneBatch (filterValidCardBookings bookings) expenses) := by
    unfold processExpenseBatch
    simp
  refine ⟨?_, ?_, ?_, ?_, ?_⟩
  · intro h
    subst h
    rfl
  · intro h
    have hpos : 0 < expenses.length := List.length_pos.mpr h
    have hlen := batchLoopF_length (filterValidCardBookings bookings) expenses
      (expenses.length + 1) 0 [] hpos (by omega)
    simpa using hlen
  · intro p hp
    exact batchLoopF_fields (filterValidCardBookings bookings) expenses
      (expenses.length + 1) 0 [] (by omega) (by omega) p hp
  · obtain ⟨pre, hpre⟩ := batchLoopF_decomp (filterValidCardBookings bookings)
      expenses (expenses.length + 1) 0 [] (by omega) (by omega)
    unfold startMatchingProcess
    rw [hpre, List.getLast?_concat, hfull]
    simp
  · unfold startMatchingProcess
    have hidem : filterValidCardBookings (filterValidCardBookings bookings) =
        filterValidCardBookings bookings := by
      unfold filterValidCardBookings
      rw [List.filter_filter]
      congr 1
      funext a
      rw [Bool.and_self]
    rw [hidem]

/-- Witness for C9 amended at a one-expense run and at the empty run. -/
theorem C9_batch_progress_amended_witness :
    (([eCardOnly] : List ExpenseData) ≠ []) ∧
    (startMatchingProcess [] [eCardOnly]).length =
      (([eCardOnly] : List ExpenseData).length + 49) / 50 ∧
    (([] : List ExpenseData) = []) ∧
    startMatchingProcess [bCardOnly] [] = [⟨0, 0, [], true⟩] ∧
    ⟨1, 1, [], true⟩ ∈ startMatchingProcess [] [eCardOnly] ∧
    (⟨1, 1, [], true⟩ : MatchingProgress).totalExpenses =
      ([eCardOnly] : List ExpenseData).length :=
  ⟨by decide,
   (C9_batch_progress_amended [] [eCardOnly]).2.1 (by decide),
   rfl,
   (C9_batch_progress_amended [bCardOnly] []).1 rfl,
   by decide,
   ((C9_batch_progress_amended [] [eCardOnly]).2.2.1 ⟨1, 1, [], true⟩ (by decide)).1⟩

end Spec2Proof
